import Mathlib

/-!
Shallow embedding of the Invoice-Assistant document reconciliation engine
(server services `PairingService`, `SortingService`, `AnomalyDetector`,
`BatchProcessor`, `AIService`) together with proofs about the spec claims.

Modelling conventions, applied uniformly:
* JS `number` amounts are modelled as `ℚ` (all amounts appearing in the code
  and claims are exact decimals).
* JS `Date` values produced by the services' `parseDate` are modelled as the
  day number of the (local-midnight) date, so `getTime` differences in whole
  days coincide with day-number differences.  The `MM/DD` format depends on
  the wall-clock current year, which is threaded as an explicit `currentYear`
  parameter.
* JS `Map` objects are modelled as association lists in insertion order
  (matching JS `Map` iteration order); `Set` objects as lists of members.
* `Array.prototype.sort` (ES2019) is guaranteed stable, and its comparators in
  this code base are consistent total preorders, so the sort result is the
  unique sorted stable permutation; it is modelled by a stable insertion sort.
* Display-only message strings attached to pairs and warnings are not
  modelled; all fields that any logic branches on are modelled.
-/

/-! ## Data model (server `types/index.ts`) -/
/-- `DocumentType` union from the types module. -/
inductive DocumentType where
  | invoice
  | trip_sheet
deriving DecidableEq, Repr

/-- `FileType` union from the types module. -/
inductive FileType where
  | pdf
  | image
deriving DecidableEq, Repr

/-- `InvoiceType` union from the types module. -/
inductive InvoiceType where
  | taxi
  | hotel
  | train
  | shipping
  | toll
  | consumables
  | other
deriving DecidableEq, Repr

/-- `DocumentStatus` union from the types module. -/
inductive DocumentStatus where
  | pending
  | processing
  | completed
  | error
deriving DecidableEq, Repr

/-- `TripDetails` interface from the types module. -/
structure TripDetails where
  platform : String
  departure : String
  destination : String
  time : String
  distanceKm : ℚ
deriving DecidableEq, Repr

/-- `DocumentData` interface from the types module.  Optional (`?`) fields are
`Option`s; the remaining fields are mandatory, exactly as in the source. -/
structure DocumentData where
  id : String
  fileName : String
  fileType : FileType
  documentType : DocumentType
  date : String
  amount : ℚ
  description : String
  confidence : ℚ
  invoiceNumber : Option String
  vendor : Option String
  taxAmount : Option ℚ
  invoiceType : Option InvoiceType
  tripDetails : Option TripDetails
  status : DocumentStatus
  errorMessage : Option String
deriving DecidableEq, Repr

/-- One entry of `PairingResult.pairs` (`PairingPair`).  The display-only
`matchReason` string is not modelled. -/
structure PairingPair where
  invoiceId : String
  tripSheetId : String
  confidence : Nat
deriving DecidableEq, Repr

/-- `PairingResult` interface from the types module. -/
structure PairingResult where
  pairs : List PairingPair
  unmatchedInvoices : List String
  unmatchedTripSheets : List String
deriving DecidableEq, Repr

/-- `WarningType` union from the types module. -/
inductive WarningType where
  | duplicate
  | amount_anomaly
  | date_gap
  | missing_pair
deriving DecidableEq, Repr

/-- Warning severity union. -/
inductive Severity where
  | low
  | medium
  | high
deriving DecidableEq, Repr

/-- `Warning` interface from the types module.  The display-only `message`
string is not modelled. -/
structure Warning where
  type : WarningType
  documentIds : List String
  severity : Option Severity
deriving DecidableEq, Repr

/-- `SortingResult` interface.  `grouping : Record<string, string[]>` keyed by
invoice type name, in insertion order, is modelled as an association list. -/
structure SortingResult where
  suggestedOrder : List String
  grouping : List (InvoiceType × List String)
deriving DecidableEq, Repr

/-- `APIConfig` interface from the types module: the complete configuration
surface handed to recognition.  It has exactly these three string fields. -/
structure APIConfig where
  endpoint : String
  apiKey : String
  model : String
deriving DecidableEq, Repr

/-! ## String helpers

The services use JS regexes/`split`/`includes`/`toLowerCase`; these are
modelled structurally on `List Char`. -/
/-- JS `String.prototype.split(sep)` for a single-character separator. -/
def splitChar (sep : Char) : List Char → List (List Char)
  | [] => [[]]
  | c :: rest =>
    let r := splitChar sep rest
    if c = sep then [] :: r
    else
      match r with
      | [] => [[c]]
      | h :: t => (c :: h) :: t

/-- Numeric value of a digit string, as JS `Number` on an all-digit string. -/
def digitsToNat (cs : List Char) : Nat :=
  cs.foldl (fun acc c => acc * 10 + (c.toNat - '0'.toNat)) 0

/-- Whether `needle` occurs as a prefix of `hay` (used to build `includes`). -/
def listStartsWith : List Char → List Char → Bool
  | _, [] => true
  | [], _ :: _ => false
  | h :: hs, n :: ns => h = n && listStartsWith hs ns

/-- JS `String.prototype.includes` on char lists. -/
def listIncludes (hay needle : List Char) : Bool :=
  if listStartsWith hay needle then true
  else
    match hay with
    | [] => false
    | _ :: t => listIncludes t needle

/-- JS `String.prototype.includes`. -/
def strIncludes (hay needle : String) : Bool :=
  listIncludes hay.toList needle.toList

/-- JS `String.prototype.toLowerCase`, restricted to the ASCII simple case
mapping; CJK characters (the only non-ASCII ones appearing in this code
base) are fixed points of both. -/
def charLower (c : Char) : Char :=
  if 'A' ≤ c ∧ c ≤ 'Z' then Char.ofNat (c.toNat + 32) else c

/-- JS `toLowerCase` on strings (ASCII simple mapping). -/
def jsToLower (s : String) : String :=
  String.mk (s.toList.map charLower)

/-! ## Date parsing (the identical private `parseDate` of `PairingService`,
`SortingService` and `AnomalyDetector`) -/
/-- Day number of the civil date `y-m-d` (Hinnant's `days_from_civil`,
days since 1970-01-01, floor-division arithmetic). -/
def daysFromCivil (y m d : Int) : Int :=
  let y2 := if m ≤ 2 then y - 1 else y
  let era := Int.fdiv y2 400
  let yoe := y2 - era * 400
  let mp := Int.emod (m + 9) 12
  let doy := Int.fdiv (153 * mp + 2) 5 + d - 1
  let doe := yoe * 365 + Int.fdiv yoe 4 - Int.fdiv yoe 100 + doy
  era * 146097 + doe - 719468

/-- Day number of JS `new Date(year, monthIndex, day)` at local midnight:
the month index is normalised into the year (JS overflow semantics), and day
overflow is day-number arithmetic from the first of the month. -/
def jsDateDays (year monthIndex day : Int) : Int :=
  let y := year + Int.fdiv monthIndex 12
  let m := Int.emod monthIndex 12 + 1
  daysFromCivil y m 1 + (day - 1)

/-- An all-digit field of length 1 or 2 (the `\d{1,2}` regex pieces),
with its numeric value. -/
def parseTwo (s : List Char) : Option Nat :=
  if (s.length = 1 ∨ s.length = 2) ∧ s.all Char.isDigit then some (digitsToNat s)
  else none

/-- An all-digit field of length 4 (the `\d{4}` regex piece). -/
def parseFour (s : List Char) : Option Nat :=
  if s.length = 4 ∧ s.all Char.isDigit then some (digitsToNat s)
  else none

/-- The services' private `parseDate`: accepts `MM/DD` (with the wall-clock
current year, threaded as `currentYear`), `YYYY-MM-DD` and `YYYY/MM/DD`,
returning the day number of the parsed local-midnight date; anything else is
unparseable (`none`). -/
def parseDate (currentYear : Int) (dateStr : String) : Option Int :=
  match splitChar '/' dateStr.toList with
  | [a, b] =>
    match parseTwo a, parseTwo b with
    | some mo, some da => some (jsDateDays currentYear ((mo : Int) - 1) (da : Int))
    | _, _ => none
  | [a, b, c] =>
    match parseFour a, parseTwo b, parseTwo c with
    | some y, some mo, some da => some (jsDateDays (y : Int) ((mo : Int) - 1) (da : Int))
    | _, _, _ => none
  | [s] =>
    match splitChar '-' s with
    | [a, b, c] =>
      match parseFour a, parseTwo b, parseTwo c with
      | some y, some mo, some da => some (jsDateDays (y : Int) ((mo : Int) - 1) (da : Int))
      | _, _, _ => none
    | _ => none
  | _ => none

/-! ## Stable sort

ES2019 `Array.prototype.sort` is stable; every comparator used in this code
base is induced by a key in a total preorder, for which sorted + stable
determines the result uniquely.  It is modelled by a stable insertion sort
parameterised by the non-strict Bool comparison `le a b` ("a may come no
later than b", i.e. comparator(a,b) ≤ 0). -/
/-- Insert `a` into `l` in front of the first element `b` with `le a b`. -/
def insertLE {α : Type} (le : α → α → Bool) (a : α) : List α → List α
  | [] => [a]
  | b :: l => if le a b then a :: b :: l else b :: insertLE le a l

/-- Stable insertion sort by the non-strict comparison `le`. -/
def sortLE {α : Type} (le : α → α → Bool) : List α → List α
  | [] => []
  | a :: l => insertLE le a (sortLE le l)

/-! ## `PairingService` -/
/-- `PairingService.checkAmountMatch`: equality within a 0.01 tolerance. -/
def checkAmountMatch (amount1 amount2 : ℚ) : Bool :=
  |amount1 - amount2| ≤ 1/100

/-- `PairingService.checkDateProximity`, returning the awarded score
(`0` when unmatched): same day `30`, 1 day apart `25`, ≤ 3 days `20`,
≤ 7 days `10`, otherwise (or if either date is unparseable) `0`.
`Math.floor(|t1 - t2| / 86400000)` on local midnights is exactly the
day-number distance. -/
def checkDateProximity (currentYear : Int) (date1 date2 : String) : Nat :=
  match parseDate currentYear date1, parseDate currentYear date2 with
  | some d1, some d2 =>
    let diffDays := (d1 - d2).natAbs
    if diffDays = 0 then 30
    else if diffDays = 1 then 25
    else if diffDays ≤ 3 then 20
    else if diffDays ≤ 7 then 10
    else 0
  | _, _ => 0

/-- `PairingService.extractPlatformKeywords`: the platform itself plus the
alias list of the first matching entry of the built-in platform map. -/
def platformMap : List (String × List String) :=
  [("滴滴", ["滴滴", "didi"]),
   ("如祺", ["如祺", "ruqi"]),
   ("曹操", ["曹操", "caocao"]),
   ("高德", ["高德", "amap"]),
   ("美团", ["美团", "meituan"]),
   ("首汽", ["首汽", "shouqi"])]

/-- `PairingService.extractPlatformKeywords`. -/
def extractPlatformKeywords (platform : String) : List String :=
  platform ::
    (match platformMap.find? (fun kv => strIncludes platform kv.1) with
     | some kv => kv.2
     | none => [])

/-- `PairingService.checkPlatformMatch`: only taxi invoices with a non-empty
trip-sheet platform qualify; some keyword of the platform must occur in the
lower-cased vendor + description text. -/
def checkPlatformMatch (invoice tripSheet : DocumentData) : Bool :=
  match invoice.invoiceType, tripSheet.tripDetails with
  | some InvoiceType.taxi, some td =>
    if td.platform = "" then false
    else
      let invoiceText := jsToLower ((invoice.vendor.getD "") ++ " " ++ invoice.description)
      (extractPlatformKeywords td.platform).any
        (fun keyword => strIncludes invoiceText (jsToLower keyword))
  | _, _ => false

/-- `PairingService.calculateMatchScore` (score component only; the
display-only reason string is not modelled): amount +50, date proximity
score, platform +20. -/
def calculateMatchScore (currentYear : Int) (invoice tripSheet : DocumentData) : Nat :=
  (if checkAmountMatch invoice.amount tripSheet.amount then 50 else 0)
    + checkDateProximity currentYear invoice.date tripSheet.date
    + (if checkPlatformMatch invoice tripSheet then 20 else 0)

/-- The scanning loop of `PairingService.pairDocuments` over the trip sheets,
carrying the mutable `bestMatch`: already-claimed trip sheets are skipped;
a trip sheet becomes the best match if its score is ≥ 50 and strictly beats
the current best (so the earliest-scanned wins ties). -/
def scanTripSheets (currentYear : Int) (invoice : DocumentData)
    (matchedTripSheetIds : List String) :
    List DocumentData → Option (DocumentData × Nat) → Option (DocumentData × Nat)
  | [], best => best
  | tripSheet :: rest, best =>
    if tripSheet.id ∈ matchedTripSheetIds then
      scanTripSheets currentYear invoice matchedTripSheetIds rest best
    else
      let score := calculateMatchScore currentYear invoice tripSheet
      if score ≥ 50 ∧ (∀ b ∈ best, score > b.2) then
        scanTripSheets currentYear invoice matchedTripSheetIds rest (some (tripSheet, score))
      else scanTripSheets currentYear invoice matchedTripSheetIds rest best

/-- The inner scan of `PairingService.pairDocuments`: the best unclaimed
trip sheet with score ≥ 50 (`bestMatch` starts out null). -/
def findBestMatch (currentYear : Int) (invoice : DocumentData)
    (tripSheets : List DocumentData) (matchedTripSheetIds : List String) :
    Option (DocumentData × Nat) :=
  scanTripSheets currentYear invoice matchedTripSheetIds tripSheets none

/-- The outer loop of `PairingService.pairDocuments`: iterate invoices in
order, claiming the best match of each; returns the pair list and the final
claimed (`matchedTripSheetIds`) set. -/
def pairInvoices (currentYear : Int) (tripSheets : List DocumentData) :
    List DocumentData → List String → List PairingPair × List String
  | [], claimed => ([], claimed)
  | invoice :: rest, claimed =>
    match findBestMatch currentYear invoice tripSheets claimed with
    | some best =>
      let r := pairInvoices currentYear tripSheets rest (claimed ++ [best.1.id])
      (⟨invoice.id, best.1.id, best.2⟩ :: r.1, r.2)
    | none => pairInvoices currentYear tripSheets rest claimed

/-- `PairingService.pairDocuments`. -/
def pairDocuments (currentYear : Int) (documents : List DocumentData) : PairingResult :=
  let invoices := documents.filter (fun doc => decide (doc.documentType = DocumentType.invoice))
  let tripSheets := documents.filter (fun doc => decide (doc.documentType = DocumentType.trip_sheet))
  let r := pairInvoices currentYear tripSheets invoices []
  let matchedInvoiceIds := r.1.map (·.invoiceId)
  { pairs := r.1
    unmatchedInvoices :=
      (invoices.filter (fun invoice => decide (invoice.id ∉ matchedInvoiceIds))).map (·.id)
    unmatchedTripSheets :=
      (tripSheets.filter (fun tripSheet => decide (tripSheet.id ∉ r.2))).map (·.id) }

/-! ## `SortingService` -/
/-- The service's `typePriority` record: the fixed business priority. -/
def typePriority : InvoiceType → Nat
  | InvoiceType.consumables => 1
  | InvoiceType.hotel => 2
  | InvoiceType.taxi => 3
  | InvoiceType.shipping => 4
  | InvoiceType.toll => 5
  | InvoiceType.train => 6
  | InvoiceType.other => 7

/-- The keys of the service's group `Map`, in insertion order (which is the
priority order; `generateFinalOrder` re-sorts the keys by `typePriority`,
which leaves this list fixed). -/
def typeOrder : List InvoiceType :=
  [InvoiceType.consumables, InvoiceType.hotel, InvoiceType.taxi,
   InvoiceType.shipping, InvoiceType.toll, InvoiceType.train, InvoiceType.other]

/-- First-binding lookup in an association list (JS `Map.get` for the
duplicate-free key sets produced here). -/
def pmLookup : List (String × String) → String → Option String
  | [], _ => none
  | kv :: rest, key => if kv.1 = key then some kv.2 else pmLookup rest key

/-- `SortingService.createPairMap`: both directions of every pair. -/
def createPairMap (pairs : PairingResult) : List (String × String) :=
  pairs.pairs.foldl
    (fun pairMap p => pairMap ++ [(p.invoiceId, p.tripSheetId), (p.tripSheetId, p.invoiceId)])
    []

/-- Accumulator of `groupByExpenseType`: the group `Map` (as a function from
the seven initialised keys) and the `processedIds` set. -/
structure GroupAcc where
  groups : InvoiceType → List DocumentData
  processed : List String

/-- Append `docs` to the bucket of `t`. -/
def addToGroup (groups : InvoiceType → List DocumentData) (t : InvoiceType)
    (docs : List DocumentData) : InvoiceType → List DocumentData :=
  fun t' => if t' = t then groups t ++ docs else groups t'

/-- First pass of `SortingService.groupByExpenseType`: invoices are bucketed
by `invoiceType || 'other'`, dragging the paired trip sheet (looked up in the
full document list) into the same bucket.  The source guards the lookup with
JS truthiness (`if (pairedTripSheetId)`), so a missing binding and an
empty-string trip-sheet id both leave the invoice alone. -/
def groupInvoiceStep (documents : List DocumentData) (pairMap : List (String × String))
    (acc : GroupAcc) (doc : DocumentData) : GroupAcc :=
  if doc.id ∈ acc.processed then acc
  else if doc.documentType = DocumentType.invoice then
    let invoiceType := doc.invoiceType.getD InvoiceType.other
    match pmLookup pairMap doc.id with
    | some pairedTripSheetId =>
      if pairedTripSheetId = "" then
        { groups := addToGroup acc.groups invoiceType [doc]
          processed := acc.processed ++ [doc.id] }
      else
        match documents.find? (fun d => decide (d.id = pairedTripSheetId)) with
        | some pairedTripSheet =>
          { groups := addToGroup acc.groups invoiceType [doc, pairedTripSheet]
            processed := acc.processed ++ [doc.id, pairedTripSheetId] }
        | none =>
          { groups := addToGroup acc.groups invoiceType [doc]
            processed := acc.processed ++ [doc.id] }
    | none =>
      { groups := addToGroup acc.groups invoiceType [doc]
        processed := acc.processed ++ [doc.id] }
  else acc

/-- Second pass of `groupByExpenseType`: trip sheets not already dragged in
by a paired invoice go to the `other` bucket. -/
def groupTripStep (acc : GroupAcc) (doc : DocumentData) : GroupAcc :=
  if doc.documentType = DocumentType.trip_sheet ∧ doc.id ∉ acc.processed then
    { groups := addToGroup acc.groups InvoiceType.other [doc]
      processed := acc.processed ++ [doc.id] }
  else acc

/-- `SortingService.groupByExpenseType`. -/
def groupByExpenseType (documents : List DocumentData)
    (pairMap : List (String × String)) : InvoiceType → List DocumentData :=
  (documents.foldl groupTripStep
    (documents.foldl (groupInvoiceStep documents pairMap) ⟨fun _ => [], []⟩)).groups

/-- A unit of `SortingService.createDocumentUnits`: a primary document with
an optionally attached paired trip sheet. -/
structure DocUnit where
  primaryDoc : DocumentData
  pairedDoc : Option DocumentData
deriving DecidableEq, Repr

/-- The loop body of `SortingService.createDocumentUnits`, iterating the
group's members with a local `processedIds` set; paired trip sheets are
looked up in the whole group (`docs`).  The source's
`pairedTripSheetId ? docs.find(...) : undefined` is a JS truthiness test, so
a missing binding and an empty-string trip-sheet id both yield a lone unit. -/
def createDocumentUnitsAux (docs : List DocumentData) (pairMap : List (String × String)) :
    List DocumentData → List String → List DocUnit
  | [], _ => []
  | doc :: rest, processed =>
    if doc.id ∈ processed then createDocumentUnitsAux docs pairMap rest processed
    else if doc.documentType = DocumentType.invoice then
      match pmLookup pairMap doc.id with
      | some pairedTripSheetId =>
        if pairedTripSheetId = "" then
          ⟨doc, none⟩ :: createDocumentUnitsAux docs pairMap rest (processed ++ [doc.id])
        else
          match docs.find? (fun d => decide (d.id = pairedTripSheetId)) with
          | some pairedTripSheet =>
            ⟨doc, some pairedTripSheet⟩ ::
              createDocumentUnitsAux docs pairMap rest (processed ++ [doc.id, pairedTripSheet.id])
          | none =>
            ⟨doc, none⟩ :: createDocumentUnitsAux docs pairMap rest (processed ++ [doc.id])
      | none =>
        ⟨doc, none⟩ :: createDocumentUnitsAux docs pairMap rest (processed ++ [doc.id])
    else
      ⟨doc, none⟩ :: createDocumentUnitsAux docs pairMap rest (processed ++ [doc.id])

/-- `SortingService.createDocumentUnits`. -/
def createDocumentUnits (docs : List DocumentData) (pairMap : List (String × String)) :
    List DocUnit :=
  createDocumentUnitsAux docs pairMap docs []

/-- The unit comparator of `sortGroupsByDate` as a non-strict comparison
("a comes no later than b"): by parsed primary date, unparseable dates last,
ties (equal keys) left in original order by stability. -/
def unitLE (currentYear : Int) (a b : DocUnit) : Bool :=
  match parseDate currentYear a.primaryDoc.date, parseDate currentYear b.primaryDoc.date with
  | none, none => true
  | none, some _ => false
  | some _, none => true
  | some dateA, some dateB => decide (dateA ≤ dateB)

/-- `SortingService.sortGroupsByDate` for one bucket: build units, stable-sort
them by primary date, flatten primary-then-paired. -/
def sortGroupsByDate (currentYear : Int) (groups : InvoiceType → List DocumentData)
    (pairMap : List (String × String)) : InvoiceType → List DocumentData :=
  fun t =>
    let units := createDocumentUnits (groups t) pairMap
    (sortLE (unitLE currentYear) units).flatMap
      (fun unit => unit.primaryDoc :: unit.pairedDoc.toList)

/-- `SortingService.generateFinalOrder`: buckets concatenated by
`typePriority` (equal to the insertion order `typeOrder`). -/
def generateFinalOrder (sortedGroups : InvoiceType → List DocumentData) : List String :=
  typeOrder.flatMap (fun t => (sortedGroups t).map (·.id))

/-- `SortingService.generateGroupingInfo`: non-empty buckets, in insertion
order, with their member ids. -/
def generateGroupingInfo (sortedGroups : InvoiceType → List DocumentData) :
    List (InvoiceType × List String) :=
  (typeOrder.filter (fun t => !(sortedGroups t).isEmpty)).map
    (fun t => (t, (sortedGroups t).map (·.id)))

/-- `SortingService.sortDocuments`. -/
def sortDocuments (currentYear : Int) (documents : List DocumentData)
    (pairs : PairingResult) : SortingResult :=
  let pairMap := createPairMap pairs
  let groups := groupByExpenseType documents pairMap
  let sortedGroups := sortGroupsByDate currentYear groups pairMap
  { suggestedOrder := generateFinalOrder sortedGroups
    grouping := generateGroupingInfo sortedGroups }

/-! ## `AnomalyDetector` -/
/-- JS `Map`-based grouping step: push `doc` onto the bucket of `key`,
creating the bucket at the end on first occurrence (insertion order). -/
def groupPush {κ : Type} [DecidableEq κ] (groups : List (κ × List DocumentData))
    (key : κ) (doc : DocumentData) : List (κ × List DocumentData) :=
  if groups.any (fun kv => decide (kv.1 = key)) then
    groups.map (fun kv => if kv.1 = key then (kv.1, kv.2 ++ [doc]) else kv)
  else groups ++ [(key, [doc])]

/-- Group a document list by a key, JS `Map` insertion-order semantics. -/
def groupByKey {κ : Type} [DecidableEq κ] (key : DocumentData → κ)
    (docs : List DocumentData) : List (κ × List DocumentData) :=
  docs.foldl (fun groups doc => groupPush groups (key doc) doc) []

/-- The truthy invoice number used as grouping key by `detectDuplicates`
(`if (invoice.invoiceNumber)`): absent or empty strings are falsy. -/
def invoiceNumberKey (doc : DocumentData) : Option String :=
  match doc.invoiceNumber with
  | some s => if s = "" then none else some s
  | none => none

/-- Cents value of JS `Number.prototype.toFixed(2)` (used only as a grouping
key): round to the nearest hundredth. -/
def jsToFixed2 (q : ℚ) : Int :=
  round (q * 100)

/-- `AnomalyDetector.detectDuplicates`: one high warning per invoice-number
group of size > 1; then, among invoices with a falsy invoice number or a
size-1 number group, one medium warning per (amount to 2 decimals, date)
group of size > 1. -/
def detectDuplicates (documents : List DocumentData) : List Warning :=
  let invoices := documents.filter (fun doc => decide (doc.documentType = DocumentType.invoice))
  let numbered := invoices.filter (fun inv => decide (invoiceNumberKey inv ≠ none))
  let invoicesByNumber := groupByKey invoiceNumberKey numbered
  let numberWarnings := invoicesByNumber.filterMap
    (fun kv =>
      if kv.2.length > 1 then
        some ⟨WarningType.duplicate, kv.2.map (·.id), some Severity.high⟩
      else none)
  let eligible := invoices.filter
    (fun inv =>
      decide (invoiceNumberKey inv = none) ||
        ((invoicesByNumber.find? (fun kv => decide (kv.1 = invoiceNumberKey inv))).all
          (fun kv => kv.2.length = 1)))
  let invoicesByAmountDate := groupByKey (fun inv => (jsToFixed2 inv.amount, inv.date)) eligible
  let amountDateWarnings := invoicesByAmountDate.filterMap
    (fun kv =>
      if kv.2.length > 1 then
        some ⟨WarningType.duplicate, kv.2.map (·.id), some Severity.medium⟩
      else none)
  numberWarnings ++ amountDateWarnings

/-- The statistics record of `AnomalyDetector.calculateAmountStats`. -/
structure AmountStats where
  mean : ℚ
  median : ℚ
  q1 : ℚ
  q3 : ℚ
  iqr : ℚ
  min : ℚ
  max : ℚ
deriving DecidableEq, Repr

/-- `AnomalyDetector.calculateAmountStats` over the (already ascending)
amounts.  `Math.floor(n * 0.25)` and `Math.floor(n * 0.75)` are exactly
`n / 4` and `3 * n / 4` in natural division. -/
def calculateAmountStats (amounts : List ℚ) : AmountStats :=
  let n := amounts.length
  let mean := amounts.foldl (· + ·) 0 / (n : ℚ)
  let median :=
    if n % 2 = 0 then (amounts.getD (n / 2 - 1) 0 + amounts.getD (n / 2) 0) / 2
    else amounts.getD (n / 2) 0
  let q1 := amounts.getD (n / 4) 0
  let q3 := amounts.getD (3 * n / 4) 0
  ⟨mean, median, q1, q3, q3 - q1, amounts.getD 0 0, amounts.getD (n - 1) 0⟩

/-- `AnomalyDetector.isAmountAnomaly`: beyond 3×IQR of [q1, q3] is a high
("far") outlier, beyond 1.5×IQR a medium ("mild") outlier, else nothing. -/
def isAmountAnomaly (amount : ℚ) (stats : AmountStats) : Option Severity :=
  let lowerBound := stats.q1 - 1.5 * stats.iqr
  let upperBound := stats.q3 + 1.5 * stats.iqr
  let extremeLowerBound := stats.q1 - 3 * stats.iqr
  let extremeUpperBound := stats.q3 + 3 * stats.iqr
  if amount < extremeLowerBound ∨ amount > extremeUpperBound then some Severity.high
  else if amount < lowerBound ∨ amount > upperBound then some Severity.medium
  else none

/-- `AnomalyDetector.detectAmountAnomalies`: per invoice-type group (insertion
order, key `invoiceType || 'other'`), skipping groups of fewer than 2
members; one warning per anomalous member, in member order. -/
def detectAmountAnomalies (documents : List DocumentData) : List Warning :=
  let invoices := documents.filter (fun doc => decide (doc.documentType = DocumentType.invoice))
  let invoicesByType := groupByKey (fun inv => inv.invoiceType.getD InvoiceType.other) invoices
  invoicesByType.flatMap
    (fun kv =>
      if kv.2.length < 2 then []
      else
        let amounts := sortLE (fun a b => decide (a ≤ b)) (kv.2.map (·.amount))
        let stats := calculateAmountStats amounts
        kv.2.filterMap
          (fun invoice =>
            (isAmountAnomaly invoice.amount stats).map
              (fun severity => ⟨WarningType.amount_anomaly, [invoice.id], some severity⟩)))

/-- The consecutive-pair walk of `AnomalyDetector.detectDateGaps` (the loop
from index 1): one warning per consecutive pair more than 7 days apart,
severity high above 30 days, medium above 14, low above 7. -/
def gapWalk : List (DocumentData × Int) → List Warning
  | prev :: curr :: rest =>
    let gapDays := (curr.2 - prev.2).natAbs
    (if gapDays > 7 then
      [⟨WarningType.date_gap, [prev.1.id, curr.1.id],
        some (if gapDays > 30 then Severity.high
              else if gapDays > 14 then Severity.medium
              else Severity.low)⟩]
     else []) ++ gapWalk (curr :: rest)
  | _ => []

/-- `AnomalyDetector.detectDateGaps`: documents with parseable dates sorted
ascending, then the consecutive walk (fewer than 2 dated documents yield
nothing). -/
def detectDateGaps (currentYear : Int) (documents : List DocumentData) : List Warning :=
  let docsWithDates := documents.filterMap
    (fun doc => (parseDate currentYear doc.date).map (fun v => (doc, v)))
  let sorted := sortLE (fun a b => decide (a.2 ≤ b.2)) docsWithDates
  if sorted.length < 2 then [] else gapWalk sorted

/-- `AnomalyDetector.detectMissingPairs`: a medium warning for every unmatched
taxi invoice and every unmatched trip sheet (looked up in the documents). -/
def detectMissingPairs (documents : List DocumentData) (pairingResult : PairingResult) :
    List Warning :=
  let invoiceWarnings := pairingResult.unmatchedInvoices.filterMap
    (fun invoiceId =>
      match documents.find? (fun d => decide (d.id = invoiceId)) with
      | some invoice =>
        if invoice.invoiceType = some InvoiceType.taxi then
          some ⟨WarningType.missing_pair, [invoiceId], some Severity.medium⟩
        else none
      | none => none)
  let tripSheetWarnings := pairingResult.unmatchedTripSheets.filterMap
    (fun tripSheetId =>
      match documents.find? (fun d => decide (d.id = tripSheetId)) with
      | some _ => some ⟨WarningType.missing_pair, [tripSheetId], some Severity.medium⟩
      | none => none)
  invoiceWarnings ++ tripSheetWarnings

/-- `AnomalyDetector.detectAnomalies`: the four detectors concatenated, the
missing-pair detector only when a pairing result is supplied. -/
def detectAnomalies (currentYear : Int) (documents : List DocumentData)
    (pairingResult : Option PairingResult) : List Warning :=
  detectDuplicates documents
    ++ detectAmountAnomalies documents
    ++ detectDateGaps currentYear documents
    ++ (match pairingResult with
        | some pr => detectMissingPairs documents pr
        | none => [])

/-! ## `AIService` (retry policy and hard-coded call constants) -/
/-- `AIErrorType` enum from the types module. -/
inductive AIErrorType where
  | API_KEY_INVALID
  | RATE_LIMIT_EXCEEDED
  | NETWORK_ERROR
  | PARSING_ERROR
  | TIMEOUT
deriving DecidableEq, Repr

/-- The classification-relevant part of an `AIError` (display message not
modelled). -/
structure AIErr where
  etype : AIErrorType
  retryable : Bool
deriving DecidableEq, Repr

/-- `AIService.MAX_RETRIES` — a private class constant, `3`. -/
def MAX_RETRIES : Nat := 3

/-- `AIService.INITIAL_RETRY_DELAY` — a private class constant, 1000 ms. -/
def INITIAL_RETRY_DELAY : Nat := 1000

/-- `AIService.TIMEOUT` — a private class constant, 30000 ms. -/
def TIMEOUT : Nat := 30000

/-- The timeout `AIService.recognizeDocument` passes to its HTTP call for a
given configuration: the axios options carry `timeout: this.TIMEOUT`, so the
value is the class constant whatever the `APIConfig` contains. -/
def requestTimeoutMs (_ : APIConfig) : Nat := TIMEOUT

/-- The retry-attempt limit `AIService.retryWithBackoff` enforces for a given
configuration: the class constant `MAX_RETRIES`, whatever the `APIConfig`
contains. -/
def retryLimitOf (_ : APIConfig) : Nat := MAX_RETRIES

/-- The initial backoff delay used for a given configuration: the class
constant `INITIAL_RETRY_DELAY`, whatever the `APIConfig` contains. -/
def initialRetryDelayOf (_ : APIConfig) : Nat := INITIAL_RETRY_DELAY

/-- `AIService.retryWithBackoff`.  The re-invoked operation is modelled as a
function from the attempt index (the `retryCount` at which it runs) to its
outcome.  Returns the final outcome together with the list of waited backoff
delays (`INITIAL_RETRY_DELAY * 2 ^ retryCount` before each retry). -/
def retryWithBackoff {α : Type} (operation : Nat → Except AIErr α) (retryCount : Nat) :
    Except AIErr α × List Nat :=
  match operation retryCount with
  | Except.ok a => (Except.ok a, [])
  | Except.error e =>
    if h : e.retryable = true ∧ retryCount < MAX_RETRIES then
      let delay := INITIAL_RETRY_DELAY * 2 ^ retryCount
      let r := retryWithBackoff operation (retryCount + 1)
      (r.1, delay :: r.2)
    else (Except.error e, [])
termination_by MAX_RETRIES - retryCount
decreasing_by omega

/-! ## `BatchProcessor` -/
/-- The per-file batch input: original name and whether the media kind is a
multi-page PDF (`mimetype === 'application/pdf'`). -/
structure FileInput where
  originalname : String
  isPdf : Bool
deriving DecidableEq, Repr

/-- `BatchProcessor.createErrorDocument`.  The source generates the id from
the wall clock and a random suffix; the id is therefore taken as a
parameter. -/
def createErrorDocument (id : String) (file : FileInput) (errorMessage : String) :
    DocumentData :=
  { id := id
    fileName := file.originalname
    fileType := if file.isPdf then FileType.pdf else FileType.image
    documentType := DocumentType.invoice
    date := ""
    amount := 0
    description := ""
    confidence := 0
    invoiceNumber := none
    vendor := none
    taxAmount := none
    invoiceType := none
    tripDetails := none
    status := DocumentStatus.error
    errorMessage := some errorMessage }

/-- The recognition phase of `BatchProcessor.processBatch`: files are
processed strictly one after another (the loop `await`s each
`processFile` before starting the next — at most one recognition call is in
flight).  `recognize` abstracts `processFile` (file conversion plus the
per-page recognition calls): a per-file list of recognised records or an
error message; `errId` supplies the placeholder id for the i-th file.
Failures append an error entry and a placeholder error document. -/
def runRecognition (errId : Nat → String)
    (recognize : FileInput → Except String (List DocumentData))
    (files : List FileInput) : List DocumentData × List (String × String) :=
  (files.enum.foldl
    (fun acc p =>
      match recognize p.2 with
      | Except.ok ds => (acc.1 ++ ds, acc.2)
      | Except.error msg =>
        (acc.1 ++ [createErrorDocument (errId p.1) p.2 msg],
         acc.2 ++ [(p.2.originalname, msg)]))
    ([], []))

/-- `BatchProcessor.processBatch` result record. -/
structure BatchProcessResult where
  documents : List DocumentData
  pairs : PairingResult
  sorting : SortingResult
  warnings : List Warning
  errors : List (String × String)
deriving DecidableEq, Repr

/-- `BatchProcessor.processBatch`: recognition over all files, then the
fatal-error check (`documents.length === 0`), then pairing → sorting →
anomaly detection over the accumulated documents. -/
def processBatch (currentYear : Int) (errId : Nat → String)
    (recognize : FileInput → Except String (List DocumentData))
    (files : List FileInput) : Except String BatchProcessResult :=
  let r := runRecognition errId recognize files
  let documents := r.1
  let errors := r.2
  if documents.isEmpty then Except.error "所有文件处理失败，请检查文件格式和API配置"
  else
    let pairs := pairDocuments currentYear documents
    let sorting := sortDocuments currentYear documents pairs
    let warnings := detectAnomalies currentYear documents (some pairs)
    Except.ok ⟨documents, pairs, sorting, warnings, errors⟩

/-! ## The unit comparator is a total preorder keyed by the parsed date -/
/-- The sort key of a unit: the parsed primary date (`none` = unparseable). -/
def unitKey (currentYear : Int) (u : DocUnit) : Option Int :=
  parseDate currentYear u.primaryDoc.date

/-- The sorted unit list of one bucket of `sortDocuments` (the intermediate
value inside `sortGroupsByDate`). -/
def bucketUnits (currentYear : Int) (documents : List DocumentData)
    (pairs : PairingResult) (t : InvoiceType) : List DocUnit :=
  sortLE (unitLE currentYear)
    (createDocumentUnits (groupByExpenseType documents (createPairMap pairs) t)
      (createPairMap pairs))

/-- The partition invariant claimed for Matching, phrased over the outputs of
`pairDocuments`: no id is used by two pairs (within or across the two pair
columns), and per kind the paired ids together with the unmatched ids are a
duplicate-free permutation of the input ids of that kind. -/
def pairingPartitionProp (currentYear : Int) (documents : List DocumentData) : Prop :=
  (((pairDocuments currentYear documents).pairs.map (·.invoiceId)
      ++ (pairDocuments currentYear documents).pairs.map (·.tripSheetId)).Nodup)
  ∧ List.Perm
      ((pairDocuments currentYear documents).pairs.map (·.invoiceId)
        ++ (pairDocuments currentYear documents).unmatchedInvoices)
      ((documents.filter (fun d => decide (d.documentType = DocumentType.invoice))).map (·.id))
  ∧ ((pairDocuments currentYear documents).pairs.map (·.invoiceId)
      ++ (pairDocuments currentYear documents).unmatchedInvoices).Nodup
  ∧ List.Perm
      ((pairDocuments currentYear documents).pairs.map (·.tripSheetId)
        ++ (pairDocuments currentYear documents).unmatchedTripSheets)
      ((documents.filter (fun d => decide (d.documentType = DocumentType.trip_sheet))).map (·.id))
  ∧ ((pairDocuments currentYear documents).pairs.map (·.tripSheetId)
      ++ (pairDocuments currentYear documents).unmatchedTripSheets).Nodup

/-- The severity ladder of the claim: > 30 high, > 14 medium, > 7 low,
otherwise no warning. -/
def dateGapSeverity (gapDays : Nat) : Option Severity :=
  if gapDays > 30 then some Severity.high
  else if gapDays > 14 then some Severity.medium
  else if gapDays > 7 then some Severity.low
  else none

/-- The date-gap behaviour in the words of the claim (reference definition
for C9): collect the records of both kinds with a parseable date, sort them
ascending, and emit exactly one warning per consecutive pair whose day gap
ladders into a severity, referencing both ids. -/
def dateGapSpec (currentYear : Int) (documents : List DocumentData) : List Warning :=
  let sorted := sortLE (fun a b => decide (a.2 ≤ b.2))
    (documents.filterMap (fun doc => (parseDate currentYear doc.date).map (fun v => (doc, v))))
  (sorted.zip sorted.tail).filterMap
    (fun pc =>
      (dateGapSeverity (pc.2.2 - pc.1.2).natAbs).map
        (fun s => ⟨WarningType.date_gap, [pc.1.1.id, pc.2.1.id], some s⟩))

/-- An invoice record dated 2024-01-01 (scenario C). -/
def docA9 : DocumentData :=
  { id := "d1", fileName := "a.jpg", fileType := FileType.image,
    documentType := DocumentType.invoice, date := "2024-01-01", amount := 100,
    description := "", confidence := 90, invoiceNumber := none, vendor := none,
    taxAmount := none, invoiceType := none, tripDetails := none,
    status := DocumentStatus.completed, errorMessage := none }

/-- A trip-sheet record dated 2024-02-15 (scenario C). -/
def docB9 : DocumentData :=
  { id := "d2", fileName := "b.jpg", fileType := FileType.image,
    documentType := DocumentType.trip_sheet, date := "2024-02-15", amount := 200,
    description := "", confidence := 90, invoiceNumber := none, vendor := none,
    taxAmount := none, invoiceType := none, tripDetails := none,
    status := DocumentStatus.completed, errorMessage := none }

/-- A hotel-category invoice with the given id and amount, dated with an
unparseable (empty) date and no invoice number (scenario D). -/
def mkHotel (id : String) (amount : ℚ) : DocumentData :=
  { id := id, fileName := id ++ ".jpg", fileType := FileType.image,
    documentType := DocumentType.invoice, date := "", amount := amount,
    description := "", confidence := 90, invoiceNumber := none, vendor := none,
    taxAmount := none, invoiceType := some InvoiceType.hotel, tripDetails := none,
    status := DocumentStatus.completed, errorMessage := none }

/-- The scenario D record set: hotel invoices of 100, 102, 105 and 5000. -/
def hotelDocs : List DocumentData :=
  [mkHotel "h1" 100, mkHotel "h2" 102, mkHotel "h3" 105, mkHotel "h4" 5000]

/-! ## C6: scenario A pairing -/
/-- The scenario A invoice: taxi, 219.67, dated `11/03`, vendor 如祺出行. -/
def invA : DocumentData :=
  { id := "invA", fileName := "taxi_invoice.jpg", fileType := FileType.image,
    documentType := DocumentType.invoice, date := "11/03", amount := 219.67,
    description := "", confidence := 95, invoiceNumber := none,
    vendor := some "如祺出行", taxAmount := none,
    invoiceType := some InvoiceType.taxi, tripDetails := none,
    status := DocumentStatus.completed, errorMessage := none }

/-- The scenario A trip sheet: 219.67, dated `11/03`, platform 如祺出行. -/
def tsA : DocumentData :=
  { id := "tsA", fileName := "trip_sheet.jpg", fileType := FileType.image,
    documentType := DocumentType.trip_sheet, date := "11/03", amount := 219.67,
    description := "", confidence := 98, invoiceNumber := none,
    vendor := none, taxAmount := none, invoiceType := none,
    tripDetails := some ⟨"如祺出行", "嘉兴电子商务产业园", "菜鸟智谷产业园", "14:30", 15.2⟩,
    status := DocumentStatus.completed, errorMessage := none }

/-! ## C1 and C10: batch processing with failed files -/
/-- A deterministic id supply for placeholder error documents. -/
def errId0 : Nat → String := fun i => "error_" ++ toString i

/-- A recogniser whose every call fails (e.g. a permanent AI error). -/
def recFail : FileInput → Except String (List DocumentData) :=
  fun _ => Except.error "AI识别错误: 识别失败"

/-- A single-file batch input. -/
def file1 : FileInput := ⟨"a.jpg", false⟩

/-- The value `processBatch` actually returns on the all-failed single-file
batch: it runs the whole reconciliation pipeline over the placeholder. -/
def batchW : BatchProcessResult :=
  ⟨[createErrorDocument "error_0" file1 "AI识别错误: 识别失败"],
   ⟨[], ["error_0"], []⟩,
   ⟨["error_0"], [(InvoiceType.other, ["error_0"])]⟩,
   [],
   [("a.jpg", "AI识别错误: 识别失败")]⟩

/-! ## C5: permutation and pair adjacency of the suggested order -/
/-- The bindings of `createPairMap` as a flat list. -/
def pairBindings (ps : List PairingPair) : List (String × String) :=
  ps.flatMap (fun p => [(p.invoiceId, p.tripSheetId), (p.tripSheetId, p.invoiceId)])

/-- The invoice-typed documents (proof-side abbreviation). -/
def invDocs (documents : List DocumentData) : List DocumentData :=
  documents.filter (fun d => decide (d.documentType = DocumentType.invoice))

/-- The trip-sheet-typed documents (proof-side abbreviation). -/
def tripDocs (documents : List DocumentData) : List DocumentData :=
  documents.filter (fun d => decide (d.documentType = DocumentType.trip_sheet))

/-- The paired trip-sheet document the grouping passes attach to an invoice:
the pair-map lookup, the JS truthiness test on the looked-up id (an empty
string is falsy), then the search in the full document list. -/
def pairedTripDoc (documents : List DocumentData) (pairMap : List (String × String))
    (d : DocumentData) : Option DocumentData :=
  (pmLookup pairMap d.id).bind (fun tsId =>
    if tsId = "" then none else documents.find? (fun x => decide (x.id = tsId)))

/-- The documents an invoice contributes to its bucket: itself and, when
present, its paired trip sheet. -/
def unitDocs (documents : List DocumentData) (pairMap : List (String × String))
    (d : DocumentData) : List DocumentData :=
  d :: (pairedTripDoc documents pairMap d).toList

/-- Well-formedness of a pair list over a document set: pairwise-distinct
invoice ids and trip ids, drawn from the respective document kinds. -/
def PairingWf (documents : List DocumentData) (ps : List PairingPair) : Prop :=
  ((ps.map (·.invoiceId)).Nodup)
  ∧ ((ps.map (·.tripSheetId)).Nodup)
  ∧ (∀ p ∈ ps, p.invoiceId ∈ (invDocs documents).map (·.id))
  ∧ (∀ p ∈ ps, p.tripSheetId ∈ (tripDocs documents).map (·.id))

/-- The ids consumed by the invoice pass of `groupByExpenseType`: every
invoice id together with the ids of the trip sheets dragged in by pairs. -/
def pass1Ids (documents : List DocumentData) (pairMap : List (String × String)) : List String :=
  (invDocs documents).flatMap (fun d => (unitDocs documents pairMap d).map (·.id))

/-- The trip sheets the second pass adds to the `other` bucket: trip sheets
not consumed by the invoice pass. -/
def looseTrips (documents : List DocumentData) (pairMap : List (String × String)) :
    List DocumentData :=
  documents.filter (fun d => decide (d.documentType = DocumentType.trip_sheet)
    && decide (d.id ∉ pass1Ids documents pairMap))

/-- The closed form of one bucket of `groupByExpenseType`: the units of the
bucket's invoices in document order, with the unmatched trip sheets appended
to the `other` bucket. -/
def bucketOf (documents : List DocumentData) (pairMap : List (String × String))
    (t : InvoiceType) : List DocumentData :=
  ((documents.filter (fun d => decide (d.documentType = DocumentType.invoice)
      && decide (d.invoiceType.getD InvoiceType.other = t))).flatMap
    (unitDocs documents pairMap))
  ++ (if t = InvoiceType.other then looseTrips documents pairMap else [])

/-- The trip-sheet ids dragged into buckets by the invoice pass, in invoice
order. -/
def pairedTsIdsOf (documents : List DocumentData) (pairMap : List (String × String)) :
    List String :=
  (invDocs documents).flatMap
    (fun d => ((pairedTripDoc documents pairMap d).toList).map (·.id))

/-- The unit a well-formed segment of a bucket becomes. -/
def segUnits : List DocumentData → List DocUnit
  | [d] => [⟨d, none⟩]
  | [d, ts] => [⟨d, some ts⟩]
  | _ => []

/-- The admissible segments a bucket decomposes into: a lone non-invoice, a
lone invoice whose pair-map lookup is falsy (missing or the empty string), or
an invoice followed by its mapped trip sheet (truthy id, present in the
bucket). -/
def SegOk (B : List DocumentData) (pm : List (String × String))
    (seg : List DocumentData) : Prop :=
  (∃ d, seg = [d] ∧ d.documentType ≠ DocumentType.invoice)
  ∨ (∃ d, seg = [d] ∧ d.documentType = DocumentType.invoice
      ∧ (pmLookup pm d.id = none ∨ pmLookup pm d.id = some ""))
  ∨ (∃ d ts, seg = [d, ts] ∧ d.documentType = DocumentType.invoice
      ∧ pmLookup pm d.id = some ts.id ∧ ts.id ≠ "" ∧ ts ∈ B)

/-- The segment decomposition of a bucket: each invoice of the bucket's
category with its attached unit, then (for `other`) the loose trip sheets as
singletons. -/
def bucketSegs (documents : List DocumentData) (pm : List (String × String))
    (t : InvoiceType) : List (List DocumentData) :=
  ((documents.filter (fun d => decide (d.documentType = DocumentType.invoice)
      && decide (d.invoiceType.getD InvoiceType.other = t))).map (unitDocs documents pm))
  ++ (if t = InvoiceType.other then (looseTrips documents pm).map (fun x => [x]) else [])

/-- A concrete taxi invoice used to witness the Matching partition invariant. -/
def invW4 : DocumentData :=
  { id := "w4_inv", fileName := "w4_inv.jpg", fileType := FileType.image,
    documentType := DocumentType.invoice, date := "2024-05-01", amount := 100,
    description := "", confidence := 90, invoiceNumber := none,
    vendor := none, taxAmount := none,
    invoiceType := some InvoiceType.taxi, tripDetails := none,
    status := DocumentStatus.completed, errorMessage := none }

/-- A concrete trip sheet used to witness the Matching partition invariant. -/
def tsW4 : DocumentData :=
  { id := "w4_ts", fileName := "w4_ts.jpg", fileType := FileType.image,
    documentType := DocumentType.trip_sheet, date := "2024-05-01", amount := 100,
    description := "", confidence := 90, invoiceNumber := none,
    vendor := none, taxAmount := none,
    invoiceType := none, tripDetails := none,
    status := DocumentStatus.completed, errorMessage := none }

/-- A concrete taxi invoice used to witness the Sequencing invariants. -/
def invW5 : DocumentData :=
  { id := "w5_inv", fileName := "w5_inv.jpg", fileType := FileType.image,
    documentType := DocumentType.invoice, date := "2024-06-02", amount := 55,
    description := "", confidence := 90, invoiceNumber := none,
    vendor := none, taxAmount := none,
    invoiceType := some InvoiceType.taxi, tripDetails := none,
    status := DocumentStatus.completed, errorMessage := none }

/-- A concrete trip sheet used to witness the Sequencing invariants. -/
def tsW5 : DocumentData :=
  { id := "w5_ts", fileName := "w5_ts.jpg", fileType := FileType.image,
    documentType := DocumentType.trip_sheet, date := "2024-06-02", amount := 55,
    description := "", confidence := 90, invoiceNumber := none,
    vendor := none, taxAmount := none,
    invoiceType := none, tripDetails := none,
    status := DocumentStatus.completed, errorMessage := none }

/-- A hotel invoice that pairs (amount + same day) with the empty-id trip
sheet `tsE`. -/
def invE_a : DocumentData :=
  { id := "a", fileName := "a.jpg", fileType := FileType.image,
    documentType := DocumentType.invoice, date := "2024-01-01", amount := 100,
    description := "", confidence := 90, invoiceNumber := none,
    vendor := none, taxAmount := none,
    invoiceType := some InvoiceType.hotel, tripDetails := none,
    status := DocumentStatus.completed, errorMessage := none }

/-- A trip sheet whose id is the empty string — a falsy value to the JS
truthiness tests of the grouping passes. -/
def tsE : DocumentData :=
  { id := "", fileName := "ts.jpg", fileType := FileType.image,
    documentType := DocumentType.trip_sheet, date := "2024-01-01", amount := 100,
    description := "", confidence := 90, invoiceNumber := none,
    vendor := none, taxAmount := none,
    invoiceType := none, tripDetails := none,
    status := DocumentStatus.completed, errorMessage := none }

/-- A taxi invoice that matches no trip sheet (its only candidate is already
claimed). -/
def invE_b : DocumentData :=
  { id := "b", fileName := "b.jpg", fileType := FileType.image,
    documentType := DocumentType.invoice, date := "2024-03-05", amount := 50,
    description := "", confidence := 90, invoiceNumber := none,
    vendor := none, taxAmount := none,
    invoiceType := some InvoiceType.taxi, tripDetails := none,
    status := DocumentStatus.completed, errorMessage := none }

/-! ## Properties of the stable sort -/
theorem insertLE_perm {α : Type} (le : α → α → Bool) (a : α) (l : List α) :
    List.Perm (insertLE le a l) (a :: l) := by
  induction l with
  | nil => simp [insertLE]
  | cons b t ih =>
    rw [insertLE]
    by_cases h : le a b = true
    · simp [h]
    · simp only [h]
      rw [if_neg (by simp [h])]
      exact ((ih.cons b).trans (List.Perm.swap a b t))

theorem sortLE_perm {α : Type} (le : α → α → Bool) (l : List α) :
    List.Perm (sortLE le l) l := by
  induction l with
  | nil => simp [sortLE]
  | cons a t ih => exact (insertLE_perm le a (sortLE le t)).trans (ih.cons a)

theorem mem_insertLE {α : Type} (le : α → α → Bool) (a x : α) (l : List α) :
    x ∈ insertLE le a l ↔ x = a ∨ x ∈ l :=
  by simpa using (insertLE_perm le a l).mem_iff

theorem insertLE_pairwise {α : Type} (le : α → α → Bool)
    (htot : ∀ x y, le x y = false → le y x = true)
    (htrans : ∀ x y z, le x y = true → le y z = true → le x z = true)
    (a : α) (l : List α) (hl : List.Pairwise (fun x y => le x y = true) l) :
    List.Pairwise (fun x y => le x y = true) (insertLE le a l) := by
  induction l with
  | nil => simp [insertLE]
  | cons b t ih =>
    rw [insertLE]
    rcases List.pairwise_cons.mp hl with ⟨hb, ht⟩
    by_cases h : le a b = true
    · rw [if_pos h]
      refine List.pairwise_cons.mpr ⟨?_, hl⟩
      intro x hx
      rcases List.mem_cons.mp hx with rfl | hx
      · exact h
      · exact htrans a b x h (hb x hx)
    · rw [if_neg (by simp [h])]
      refine List.pairwise_cons.mpr ⟨?_, ih ht⟩
      intro x hx
      rcases (mem_insertLE le a x t).mp hx with heq | hx
      · rw [heq]; exact htot a b (by simpa using h)
      · exact hb x hx

theorem sortLE_pairwise {α : Type} (le : α → α → Bool)
    (htot : ∀ x y, le x y = false → le y x = true)
    (htrans : ∀ x y z, le x y = true → le y z = true → le x z = true) (l : List α) :
    List.Pairwise (fun x y => le x y = true) (sortLE le l) := by
  induction l with
  | nil => simp [sortLE]
  | cons a t ih => exact insertLE_pairwise le htot htrans a (sortLE le t) ih

theorem insertLE_filter_key {α κ : Type} [DecidableEq κ] (le : α → α → Bool) (k : α → κ)
    (hk : ∀ x y, le x y = false → k y ≠ k x) (a : α) (l : List α) (v : κ) :
    (insertLE le a l).filter (fun x => decide (k x = v)) =
      if k a = v then a :: l.filter (fun x => decide (k x = v))
      else l.filter (fun x => decide (k x = v)) := by
  induction l with
  | nil =>
    by_cases h : k a = v <;> simp [insertLE, List.filter, h]
  | cons b t ih =>
    rw [insertLE]
    by_cases h : le a b = true
    · by_cases hv : k a = v <;> simp [h, List.filter, hv]
    · rw [if_neg (by simp [h])]
      have hba : k b ≠ k a := hk a b (by simpa using h)
      by_cases hv : k a = v
      · have hbv : ¬(k b = v) := by rw [← hv]; exact hba
        simp only [List.filter, hv, if_pos rfl] at *
        simp only [hbv, decide_eq_true_eq, decide_eq_false hbv] at *
        simp [ih, hv, hbv]
      · simp only [List.filter]
        by_cases hbv : k b = v <;> simp [hbv, ih, hv]

theorem sortLE_filter_key {α κ : Type} [DecidableEq κ] (le : α → α → Bool) (k : α → κ)
    (hk : ∀ x y, le x y = false → k y ≠ k x) (l : List α) (v : κ) :
    (sortLE le l).filter (fun x => decide (k x = v)) =
      l.filter (fun x => decide (k x = v)) := by
  induction l with
  | nil => simp [sortLE]
  | cons a t ih =>
    rw [sortLE, insertLE_filter_key le k hk]
    by_cases hv : k a = v <;> simp [List.filter, hv, ih]

theorem unitLE_total (currentYear : Int) :
    ∀ x y, unitLE currentYear x y = false → unitLE currentYear y x = true := by
  intro x y
  unfold unitLE
  cases parseDate currentYear x.primaryDoc.date with
  | none =>
    cases parseDate currentYear y.primaryDoc.date with
    | none => simp
    | some dy => simp
  | some dx =>
    cases parseDate currentYear y.primaryDoc.date with
    | none => simp
    | some dy =>
      simp only [decide_eq_false_iff_not, decide_eq_true_eq]
      omega

theorem unitLE_trans (currentYear : Int) :
    ∀ x y z, unitLE currentYear x y = true → unitLE currentYear y z = true →
      unitLE currentYear x z = true := by
  intro x y z
  unfold unitLE
  cases parseDate currentYear x.primaryDoc.date with
  | none =>
    cases parseDate currentYear y.primaryDoc.date with
    | none => cases parseDate currentYear z.primaryDoc.date <;> simp
    | some dy => simp
  | some dx =>
    cases parseDate currentYear y.primaryDoc.date with
    | none => cases parseDate currentYear z.primaryDoc.date <;> simp
    | some dy =>
      cases parseDate currentYear z.primaryDoc.date with
      | none => simp
      | some dz =>
        simp only [decide_eq_true_eq]
        omega

theorem unitLE_key (currentYear : Int) :
    ∀ x y, unitLE currentYear x y = false → unitKey currentYear y ≠ unitKey currentYear x := by
  intro x y
  unfold unitLE unitKey
  cases hx : parseDate currentYear x.primaryDoc.date with
  | none =>
    cases hy : parseDate currentYear y.primaryDoc.date with
    | none => simp
    | some dy => simp
  | some dx =>
    cases hy : parseDate currentYear y.primaryDoc.date with
    | none => simp
    | some dy =>
      simp only [decide_eq_false_iff_not, not_le, ne_eq, Option.some.injEq]
      omega

/-! ## C7 support: bucket concatenation and grouping -/
theorem flatMap_filter_nonEmpty {α β : Type} (l : List α) (f : α → List β) :
    (l.filter (fun a => !(f a).isEmpty)).flatMap f = l.flatMap f := by
  induction l with
  | nil => rfl
  | cons a t ih =>
    by_cases h : (f a).isEmpty = true
    · have : f a = [] := List.isEmpty_iff.mp h
      simp [List.filter_cons, h, ih, this]
    · simp [List.filter_cons, h, ih]

theorem flatMap_groupingInfo (sortedGroups : InvoiceType → List DocumentData)
    (l : List InvoiceType) :
    ((l.filter (fun t => !(sortedGroups t).isEmpty)).map
        (fun t => (t, (sortedGroups t).map (·.id)))).flatMap (fun e => e.2) =
      l.flatMap (fun t => (sortedGroups t).map (·.id)) := by
  induction l with
  | nil => rfl
  | cons a tl ih =>
    by_cases h : (sortedGroups a).isEmpty = true
    · have ha : sortedGroups a = [] := List.isEmpty_iff.mp h
      simp [List.filter_cons, h, ih, ha]
    · simp [List.filter_cons, h, ih]

theorem generateFinalOrder_eq_grouping (sortedGroups : InvoiceType → List DocumentData) :
    generateFinalOrder sortedGroups =
      (generateGroupingInfo sortedGroups).flatMap (fun e => e.2) := by
  unfold generateFinalOrder generateGroupingInfo
  exact (flatMap_groupingInfo sortedGroups typeOrder).symm

theorem generateGroupingInfo_priority (sortedGroups : InvoiceType → List DocumentData) :
    List.Pairwise (fun a b => typePriority a.1 < typePriority b.1)
      (generateGroupingInfo sortedGroups) := by
  unfold generateGroupingInfo
  rw [List.pairwise_map]
  exact (List.Pairwise.sublist (List.filter_sublist typeOrder)
    (by decide : List.Pairwise (fun a b => typePriority a < typePriority b) typeOrder))

/-- C7: the output buckets of `sortDocuments` appear in the fixed business
priority order consumables, hotel, taxi, shipping, toll, train, other, and
within each bucket the units are stably ordered by the primary record's
parsed date, ascending, with unparseable dates last and equal dates keeping
their original relative order.  Concretely: (1) `suggestedOrder` is the
concatenation of the `grouping` buckets as listed; (2) the `grouping` keys
are strictly increasing in `typePriority`, whose values on `typeOrder`
enumerate the priorities 1–7; (3) each bucket flattens its sorted unit list
primary-then-paired; and the sorted unit list (4) is a permutation of the
bucket's units, (5) is pairwise `unitLE`-ordered (ascending parsed date,
`none` last), and (6) preserves, for every date key, the original relative
order of the units with that key (stability). -/
theorem sorting_fixed_priority_and_date_order (currentYear : Int)
    (documents : List DocumentData) (pairs : PairingResult) :
    (sortDocuments currentYear documents pairs).suggestedOrder
        = (sortDocuments currentYear documents pairs).grouping.flatMap (fun e => e.2)
    ∧ List.Pairwise (fun a b => typePriority a.1 < typePriority b.1)
        (sortDocuments currentYear documents pairs).grouping
    ∧ typeOrder.map typePriority = [1, 2, 3, 4, 5, 6, 7]
    ∧ (∀ t, sortGroupsByDate currentYear
          (groupByExpenseType documents (createPairMap pairs)) (createPairMap pairs) t
        = (bucketUnits currentYear documents pairs t).flatMap
            (fun u => u.primaryDoc :: u.pairedDoc.toList))
    ∧ (∀ t, List.Perm (bucketUnits currentYear documents pairs t)
        (createDocumentUnits (groupByExpenseType documents (createPairMap pairs) t)
          (createPairMap pairs)))
    ∧ (∀ t, List.Pairwise (fun a b => unitLE currentYear a b = true)
        (bucketUnits currentYear documents pairs t))
    ∧ (∀ t v, (bucketUnits currentYear documents pairs t).filter
          (fun u => decide (unitKey currentYear u = v))
        = (createDocumentUnits (groupByExpenseType documents (createPairMap pairs) t)
            (createPairMap pairs)).filter (fun u => decide (unitKey currentYear u = v))) := by
  refine ⟨?_, ?_, by decide, fun t => rfl, fun t => ?_, fun t => ?_, fun t v => ?_⟩
  · exact generateFinalOrder_eq_grouping _
  · exact generateGroupingInfo_priority _
  · exact sortLE_perm _ _
  · exact sortLE_pairwise _ (unitLE_total currentYear) (unitLE_trans currentYear) _
  · exact sortLE_filter_key _ (unitKey currentYear) (unitLE_key currentYear) _ v

/-! ## C4: the pairing partition invariant -/
theorem scanTripSheets_spec (currentYear : Int) (invoice : DocumentData)
    (claimed : List String) :
    ∀ (tss : List DocumentData) (best r : Option (DocumentData × Nat)),
      scanTripSheets currentYear invoice claimed tss best = r →
      r = best ∨ ∃ p, r = some p ∧ p.1 ∈ tss ∧ p.1.id ∉ claimed := by
  intro tss
  induction tss with
  | nil =>
    intro best r h
    exact Or.inl h.symm
  | cons ts rest ih =>
    intro best r h
    simp only [scanTripSheets] at h
    by_cases hmem : ts.id ∈ claimed
    · rw [if_pos hmem] at h
      rcases ih best r h with h1 | ⟨p, hp, hmem2, hcl⟩
      · exact Or.inl h1
      · exact Or.inr ⟨p, hp, List.mem_cons_of_mem _ hmem2, hcl⟩
    · rw [if_neg hmem] at h
      by_cases hcond : calculateMatchScore currentYear invoice ts ≥ 50 ∧
          ∀ b ∈ best, calculateMatchScore currentYear invoice ts > b.2
      · rw [if_pos hcond] at h
        rcases ih _ r h with h1 | ⟨p, hp, hmem2, hcl⟩
        · exact Or.inr ⟨(ts, calculateMatchScore currentYear invoice ts), h1,
            List.mem_cons_self ts rest, hmem⟩
        · exact Or.inr ⟨p, hp, List.mem_cons_of_mem _ hmem2, hcl⟩
      · rw [if_neg hcond] at h
        rcases ih best r h with h1 | ⟨p, hp, hmem2, hcl⟩
        · exact Or.inl h1
        · exact Or.inr ⟨p, hp, List.mem_cons_of_mem _ hmem2, hcl⟩

theorem findBestMatch_spec (currentYear : Int) (invoice : DocumentData)
    (tripSheets : List DocumentData) (claimed : List String) (p : DocumentData × Nat)
    (h : findBestMatch currentYear invoice tripSheets claimed = some p) :
    p.1 ∈ tripSheets ∧ p.1.id ∉ claimed := by
  rcases scanTripSheets_spec currentYear invoice claimed tripSheets none (some p) h with
    h1 | ⟨q, hq, hmem, hcl⟩
  · exact absurd h1 (by simp)
  · rcases Option.some.inj hq with rfl
    exact ⟨hmem, hcl⟩

theorem pairInvoices_claimed_eq (currentYear : Int) (tss : List DocumentData) :
    ∀ (invs : List DocumentData) (claimed : List String),
      (pairInvoices currentYear tss invs claimed).2
        = claimed ++ (pairInvoices currentYear tss invs claimed).1.map (·.tripSheetId) := by
  intro invs
  induction invs with
  | nil => intro claimed; simp [pairInvoices]
  | cons inv rest ih =>
    intro claimed
    rw [pairInvoices]
    cases hfb : findBestMatch currentYear inv tss claimed with
    | some best =>
      simp only [List.map_cons]
      rw [ih (claimed ++ [best.1.id]), List.append_assoc]
      simp
    | none =>
      exact ih claimed

theorem pairInvoices_inv_sublist (currentYear : Int) (tss : List DocumentData) :
    ∀ (invs : List DocumentData) (claimed : List String),
      List.Sublist ((pairInvoices currentYear tss invs claimed).1.map (·.invoiceId))
        (invs.map (·.id)) := by
  intro invs
  induction invs with
  | nil => intro claimed; simp [pairInvoices]
  | cons inv rest ih =>
    intro claimed
    rw [pairInvoices]
    cases hfb : findBestMatch currentYear inv tss claimed with
    | some best =>
      simp only [List.map_cons]
      exact List.Sublist.cons₂ _ (ih (claimed ++ [best.1.id]))
    | none =>
      exact List.Sublist.cons _ (ih claimed)

theorem pairInvoices_trip_spec (currentYear : Int) (tss : List DocumentData) :
    ∀ (invs : List DocumentData) (claimed : List String),
      (∀ p ∈ (pairInvoices currentYear tss invs claimed).1,
          p.tripSheetId ∈ tss.map (·.id) ∧ p.tripSheetId ∉ claimed)
      ∧ ((pairInvoices currentYear tss invs claimed).1.map (·.tripSheetId)).Nodup := by
  intro invs
  induction invs with
  | nil => intro claimed; simp [pairInvoices]
  | cons inv rest ih =>
    intro claimed
    rw [pairInvoices]
    cases hfb : findBestMatch currentYear inv tss claimed with
    | some best =>
      rcases findBestMatch_spec currentYear inv tss claimed best hfb with ⟨hmem, hcl⟩
      rcases ih (claimed ++ [best.1.id]) with ⟨ihmem, ihnd⟩
      constructor
      · intro p hp
        rcases List.mem_cons.mp hp with rfl | hp
        · exact ⟨List.mem_map_of_mem (·.id) hmem, hcl⟩
        · rcases ihmem p hp with ⟨h1, h2⟩
          exact ⟨h1, fun hc => h2 (List.mem_append_left _ hc)⟩
      · simp only [List.map_cons, List.nodup_cons]
        refine ⟨?_, ihnd⟩
        intro hc
        rcases List.mem_map.mp hc with ⟨p, hp, hpid⟩
        exact (ihmem p hp).2 (List.mem_append_right _ (by simp [hpid]))
    | none =>
      exact ih claimed

theorem map_filter_comp {α β : Type} (f : α → β) (p : β → Bool) (l : List α) :
    (l.filter (fun a => p (f a))).map f = (l.map f).filter p := by
  induction l with
  | nil => rfl
  | cons a t ih =>
    by_cases h : p (f a) = true <;> simp [List.filter_cons, h, ih]

theorem filter_mem_perm {α : Type} [DecidableEq α] {s l : List α} (hs : s.Nodup)
    (hl : l.Nodup) (hsub : ∀ x ∈ s, x ∈ l) :
    List.Perm (s ++ l.filter (fun x => decide (x ∉ s))) l := by
  have h1 : List.Perm (l.filter (fun x => decide (x ∈ s))) s := by
    apply (List.perm_ext_iff_of_nodup (List.Nodup.filter _ hl) hs).mpr
    intro a
    simp only [List.mem_filter, decide_eq_true_eq]
    exact ⟨fun h => h.2, fun h => ⟨hsub a h, h⟩⟩
  have h2 : (fun x => decide (x ∉ s)) = (fun x : α => !decide (x ∈ s)) := by
    funext x; simp
  have h3 : List.Perm (l.filter (fun x => decide (x ∈ s)) ++ l.filter (fun x => decide (x ∉ s))) l := by
    rw [h2]
    exact List.filter_append_perm _ l
  exact ((h1.symm.append_right _).trans h3)

theorem trip_filter_eq_not_invoice (documents : List DocumentData) :
    documents.filter (fun d => decide (d.documentType = DocumentType.trip_sheet))
      = documents.filter (fun d => !decide (d.documentType = DocumentType.invoice)) := by
  apply List.filter_congr
  intro d _
  cases h : d.documentType <;> simp [h]

theorem inv_trip_append_perm (documents : List DocumentData) :
    List.Perm
      ((documents.filter (fun d => decide (d.documentType = DocumentType.invoice))).map (·.id)
        ++ (documents.filter (fun d => decide (d.documentType = DocumentType.trip_sheet))).map (·.id))
      (documents.map (·.id)) := by
  rw [trip_filter_eq_not_invoice, ← List.map_append]
  exact List.Perm.map _ (List.filter_append_perm _ documents)

theorem pairDocuments_pairs (currentYear : Int) (documents : List DocumentData) :
    (pairDocuments currentYear documents).pairs =
      (pairInvoices currentYear
        (documents.filter (fun d => decide (d.documentType = DocumentType.trip_sheet)))
        (documents.filter (fun d => decide (d.documentType = DocumentType.invoice))) []).1 := rfl

theorem pairDocuments_unmatchedInv (currentYear : Int) (documents : List DocumentData) :
    (pairDocuments currentYear documents).unmatchedInvoices =
      ((documents.filter (fun d => decide (d.documentType = DocumentType.invoice))).filter
        (fun invoice => decide (invoice.id ∉
          (pairInvoices currentYear
            (documents.filter (fun d => decide (d.documentType = DocumentType.trip_sheet)))
            (documents.filter (fun d => decide (d.documentType = DocumentType.invoice)))
            []).1.map (·.invoiceId)))).map (·.id) := rfl

theorem pairDocuments_unmatchedTrip (currentYear : Int) (documents : List DocumentData) :
    (pairDocuments currentYear documents).unmatchedTripSheets =
      ((documents.filter (fun d => decide (d.documentType = DocumentType.trip_sheet))).filter
        (fun tripSheet => decide (tripSheet.id ∉
          (pairInvoices currentYear
            (documents.filter (fun d => decide (d.documentType = DocumentType.trip_sheet)))
            (documents.filter (fun d => decide (d.documentType = DocumentType.invoice)))
            []).2))).map (·.id) := rfl

/-- C4: for distinct input ids, `pairDocuments` books no id into two pairs,
and per kind {paired ids} ∪ {unmatched ids} is a duplicate-free partition of
the input ids of that kind. -/
theorem pairDocuments_partition (currentYear : Int) (documents : List DocumentData)
    (h : (documents.map (·.id)).Nodup) : pairingPartitionProp currentYear documents := by
  have hinv : ((documents.filter
      (fun d => decide (d.documentType = DocumentType.invoice))).map (·.id)).Nodup :=
    h.sublist ((documents.filter_sublist).map _)
  have hts : ((documents.filter
      (fun d => decide (d.documentType = DocumentType.trip_sheet))).map (·.id)).Nodup :=
    h.sublist ((documents.filter_sublist).map _)
  have hdisj : ∀ a ∈ ((documents.filter
        (fun d => decide (d.documentType = DocumentType.invoice))).map (·.id)),
      a ∉ ((documents.filter
        (fun d => decide (d.documentType = DocumentType.trip_sheet))).map (·.id)) := by
    have hnd := ((inv_trip_append_perm documents).nodup_iff).mpr h
    exact (List.nodup_append.mp hnd).2.2
  have hsubl := pairInvoices_inv_sublist currentYear
    (documents.filter (fun d => decide (d.documentType = DocumentType.trip_sheet)))
    (documents.filter (fun d => decide (d.documentType = DocumentType.invoice))) []
  have hInvNodup := hinv.sublist hsubl
  rcases pairInvoices_trip_spec currentYear
    (documents.filter (fun d => decide (d.documentType = DocumentType.trip_sheet)))
    (documents.filter (fun d => decide (d.documentType = DocumentType.invoice))) [] with
    ⟨htripmem, htripnd⟩
  have hclaim := pairInvoices_claimed_eq currentYear
    (documents.filter (fun d => decide (d.documentType = DocumentType.trip_sheet)))
    (documents.filter (fun d => decide (d.documentType = DocumentType.invoice))) []
  rw [List.nil_append] at hclaim
  have htripsub : ∀ x ∈ (pairInvoices currentYear
      (documents.filter (fun d => decide (d.documentType = DocumentType.trip_sheet)))
      (documents.filter (fun d => decide (d.documentType = DocumentType.invoice)))
      []).1.map (·.tripSheetId),
      x ∈ (documents.filter
        (fun d => decide (d.documentType = DocumentType.trip_sheet))).map (·.id) := by
    intro x hx
    rcases List.mem_map.mp hx with ⟨p, hp, rfl⟩
    exact (htripmem p hp).1
  have hpermInv := filter_mem_perm hInvNodup hinv (fun x hx => hsubl.subset hx)
  have hpermTrip := filter_mem_perm htripnd hts htripsub
  have hmfInv : (pairDocuments currentYear documents).unmatchedInvoices =
      ((documents.filter (fun d => decide (d.documentType = DocumentType.invoice))).map
        (·.id)).filter
        (fun x => decide (x ∉ (pairInvoices currentYear
          (documents.filter (fun d => decide (d.documentType = DocumentType.trip_sheet)))
          (documents.filter (fun d => decide (d.documentType = DocumentType.invoice)))
          []).1.map (·.invoiceId))) := by
    rw [pairDocuments_unmatchedInv]
    exact map_filter_comp (fun x : DocumentData => x.id)
      (fun x => decide (x ∉ (pairInvoices currentYear
        (documents.filter (fun d => decide (d.documentType = DocumentType.trip_sheet)))
        (documents.filter (fun d => decide (d.documentType = DocumentType.invoice)))
        []).1.map (·.invoiceId))) _
  have hmfTrip : (pairDocuments currentYear documents).unmatchedTripSheets =
      ((documents.filter (fun d => decide (d.documentType = DocumentType.trip_sheet))).map
        (·.id)).filter
        (fun x => decide (x ∉ (pairInvoices currentYear
          (documents.filter (fun d => decide (d.documentType = DocumentType.trip_sheet)))
          (documents.filter (fun d => decide (d.documentType = DocumentType.invoice)))
          []).1.map (·.tripSheetId))) := by
    rw [pairDocuments_unmatchedTrip, hclaim]
    exact map_filter_comp (fun x : DocumentData => x.id)
      (fun x => decide (x ∉ (pairInvoices currentYear
        (documents.filter (fun d => decide (d.documentType = DocumentType.trip_sheet)))
        (documents.filter (fun d => decide (d.documentType = DocumentType.invoice)))
        []).1.map (·.tripSheetId))) _
  refine ⟨?_, ?_, ?_, ?_, ?_⟩
  · rw [pairDocuments_pairs]
    refine List.nodup_append.mpr ⟨hInvNodup, htripnd, ?_⟩
    intro a ha hb
    exact hdisj a (hsubl.subset ha) (htripsub a hb)
  · rw [pairDocuments_pairs, hmfInv]
    exact hpermInv
  · rw [pairDocuments_pairs, hmfInv]
    exact (hpermInv.nodup_iff).mpr hinv
  · rw [pairDocuments_pairs, hmfTrip]
    exact hpermTrip
  · rw [pairDocuments_pairs, hmfTrip]
    exact (hpermTrip.nodup_iff).mpr hts

/-! ## C9: date-gap warnings -/
theorem detectDuplicates_types (documents : List DocumentData) :
    ∀ w ∈ detectDuplicates documents, w.type = WarningType.duplicate := by
  intro w hw
  unfold detectDuplicates at hw
  rcases List.mem_append.mp hw with h | h <;>
  · rcases List.mem_filterMap.mp h with ⟨kv, _, hkv⟩
    by_cases hl : kv.2.length > 1
    · rw [if_pos hl] at hkv
      rcases Option.some.inj hkv with rfl
      rfl
    · rw [if_neg hl] at hkv
      cases hkv

theorem detectAmountAnomalies_types (documents : List DocumentData) :
    ∀ w ∈ detectAmountAnomalies documents, w.type = WarningType.amount_anomaly := by
  intro w hw
  unfold detectAmountAnomalies at hw
  rcases List.mem_flatMap.mp hw with ⟨kv, _, hkv⟩
  by_cases hl : kv.2.length < 2
  · rw [if_pos hl] at hkv
    cases hkv
  · rw [if_neg hl] at hkv
    rcases List.mem_filterMap.mp hkv with ⟨inv, _, hinv⟩
    rcases Option.map_eq_some'.mp hinv with ⟨sev, _, hsev⟩
    rw [← hsev]

theorem gapWalk_types (l : List (DocumentData × Int)) :
    ∀ w ∈ gapWalk l, w.type = WarningType.date_gap := by
  induction l with
  | nil => intro w hw; cases hw
  | cons a t ih =>
    intro w hw
    cases t with
    | nil => cases hw
    | cons b rest =>
      rw [gapWalk] at hw
      rcases List.mem_append.mp hw with h | h
      · by_cases hg : (b.2 - a.2).natAbs > 7
        · rw [if_pos hg] at h
          rcases List.mem_singleton.mp h with rfl
          rfl
        · rw [if_neg hg] at h
          cases h
      · exact ih w h

theorem detectDateGaps_types (currentYear : Int) (documents : List DocumentData) :
    ∀ w ∈ detectDateGaps currentYear documents, w.type = WarningType.date_gap := by
  intro w hw
  unfold detectDateGaps at hw
  by_cases hl : (sortLE (fun a b => decide (a.2 ≤ b.2)) (documents.filterMap
      (fun doc => (parseDate currentYear doc.date).map (fun v => (doc, v))))).length < 2
  · rw [if_pos hl] at hw
    cases hw
  · rw [if_neg hl] at hw
    exact gapWalk_types _ w hw

theorem detectMissingPairs_types (documents : List DocumentData) (pr : PairingResult) :
    ∀ w ∈ detectMissingPairs documents pr, w.type = WarningType.missing_pair := by
  intro w hw
  unfold detectMissingPairs at hw
  rcases List.mem_append.mp hw with h | h
  · rcases List.mem_filterMap.mp h with ⟨invoiceId, _, hid⟩
    cases hfind : documents.find? (fun d => decide (d.id = invoiceId)) with
    | some invoice =>
      rw [hfind] at hid
      by_cases htaxi : invoice.invoiceType = some InvoiceType.taxi
      · simp only [if_pos htaxi] at hid
        rcases Option.some.inj hid with rfl
        rfl
      · simp only [if_neg htaxi] at hid
        cases hid
    | none =>
      rw [hfind] at hid
      cases hid
  · rcases List.mem_filterMap.mp h with ⟨tripSheetId, _, hid⟩
    cases hfind : documents.find? (fun d => decide (d.id = tripSheetId)) with
    | some tripSheet =>
      rw [hfind] at hid
      rcases Option.some.inj hid with rfl
      rfl
    | none =>
      rw [hfind] at hid
      cases hid

theorem gapWalk_eq_zip (l : List (DocumentData × Int)) :
    gapWalk l = (l.zip l.tail).filterMap
      (fun pc =>
        (dateGapSeverity (pc.2.2 - pc.1.2).natAbs).map
          (fun s => ⟨WarningType.date_gap, [pc.1.1.id, pc.2.1.id], some s⟩)) := by
  induction l with
  | nil => rfl
  | cons a t ih =>
    cases t with
    | nil => rfl
    | cons b rest =>
      rw [gapWalk, ih]
      simp only [List.tail_cons, List.zip_cons_cons, List.filterMap_cons]
      by_cases hg : (b.2 - a.2).natAbs > 7
      · have : dateGapSeverity (b.2 - a.2).natAbs =
            some (if (b.2 - a.2).natAbs > 30 then Severity.high
                  else if (b.2 - a.2).natAbs > 14 then Severity.medium
                  else Severity.low) := by
          unfold dateGapSeverity
          by_cases h30 : (b.2 - a.2).natAbs > 30
          · simp [h30]
          · by_cases h14 : (b.2 - a.2).natAbs > 14
            · simp [h30, h14]
            · simp [h30, h14, hg]
        rw [if_pos hg, this]
        simp
      · have : dateGapSeverity (b.2 - a.2).natAbs = none := by
          unfold dateGapSeverity
          rw [if_neg (by omega), if_neg (by omega), if_neg (by omega)]
        rw [if_neg hg, this]
        simp

theorem filter_dup_dateGap (documents : List DocumentData) :
    (detectDuplicates documents).filter
      (fun w => decide (w.type = WarningType.date_gap)) = [] := by
  rw [List.filter_eq_nil_iff]
  intro w hw
  simp [detectDuplicates_types documents w hw]

theorem filter_amount_dateGap (documents : List DocumentData) :
    (detectAmountAnomalies documents).filter
      (fun w => decide (w.type = WarningType.date_gap)) = [] := by
  rw [List.filter_eq_nil_iff]
  intro w hw
  simp [detectAmountAnomalies_types documents w hw]

theorem filter_gaps_dateGap (currentYear : Int) (documents : List DocumentData) :
    (detectDateGaps currentYear documents).filter
        (fun w => decide (w.type = WarningType.date_gap))
      = detectDateGaps currentYear documents := by
  rw [List.filter_eq_self]
  intro w hw
  simp [detectDateGaps_types currentYear documents w hw]

theorem filter_missing_dateGap (documents : List DocumentData) (pr : PairingResult) :
    (detectMissingPairs documents pr).filter
      (fun w => decide (w.type = WarningType.date_gap)) = [] := by
  rw [List.filter_eq_nil_iff]
  intro w hw
  simp [detectMissingPairs_types documents pr w hw]

theorem detectAnomalies_dateGap (currentYear : Int) (documents : List DocumentData)
    (pairingResult : Option PairingResult) :
    (detectAnomalies currentYear documents pairingResult).filter
        (fun w => decide (w.type = WarningType.date_gap))
      = detectDateGaps currentYear documents := by
  cases pairingResult with
  | none =>
    unfold detectAnomalies
    rw [List.filter_append, List.filter_append, List.filter_append,
      filter_dup_dateGap, filter_amount_dateGap, filter_gaps_dateGap]
    simp
  | some pr =>
    unfold detectAnomalies
    rw [List.filter_append, List.filter_append, List.filter_append,
      filter_dup_dateGap, filter_amount_dateGap, filter_gaps_dateGap,
      filter_missing_dateGap]
    simp

theorem lengthGuard_gapWalk (l : List (DocumentData × Int)) :
    (if l.length < 2 then [] else gapWalk l)
      = (l.zip l.tail).filterMap
          (fun pc =>
            (dateGapSeverity (pc.2.2 - pc.1.2).natAbs).map
              (fun s => ⟨WarningType.date_gap, [pc.1.1.id, pc.2.1.id], some s⟩)) := by
  cases l with
  | nil => rfl
  | cons a t =>
    cases t with
    | nil => rfl
    | cons b rest =>
      rw [if_neg (by simp)]
      exact gapWalk_eq_zip _

theorem detectDateGaps_eq_spec (currentYear : Int) (documents : List DocumentData) :
    detectDateGaps currentYear documents = dateGapSpec currentYear documents := by
  unfold detectDateGaps dateGapSpec
  exact lengthGuard_gapWalk _

/-- C9: `detectAnomalies` emits the date-gap warnings of the claim: its
`date_gap`-typed warnings are exactly those obtained by collecting the
records of both kinds with a parseable date, sorting ascending, and emitting
one warning per consecutive pair with day gap > 7 (severity high > 30,
medium > 14, low > 7, nothing at ≤ 7), referencing both ids; and two records
dated 2024-01-01 and 2024-02-15 (a 45-day gap) yield exactly one
high-severity `date_gap` warning. -/
theorem detectAnomalies_date_gap_behaviour :
    (∀ (currentYear : Int) (documents : List DocumentData)
        (pairingResult : Option PairingResult),
      (detectAnomalies currentYear documents pairingResult).filter
          (fun w => decide (w.type = WarningType.date_gap))
        = dateGapSpec currentYear documents)
    ∧ (parseDate 2024 "2024-02-15").getD 0 - (parseDate 2024 "2024-01-01").getD 0 = 45
    ∧ detectAnomalies 2024 [docA9, docB9] none
        = [⟨WarningType.date_gap, ["d1", "d2"], some Severity.high⟩] := by
  refine ⟨?_, by decide, by decide⟩
  intro currentYear documents pairingResult
  rw [detectAnomalies_dateGap, detectDateGaps_eq_spec]

/-! ## C2: amount-anomaly warnings on scenario D -/
theorem filter_dup_amount (documents : List DocumentData) :
    (detectDuplicates documents).filter
      (fun w => decide (w.type = WarningType.amount_anomaly)) = [] := by
  rw [List.filter_eq_nil_iff]
  intro w hw
  simp [detectDuplicates_types documents w hw]

theorem filter_gaps_amount (currentYear : Int) (documents : List DocumentData) :
    (detectDateGaps currentYear documents).filter
      (fun w => decide (w.type = WarningType.amount_anomaly)) = [] := by
  rw [List.filter_eq_nil_iff]
  intro w hw
  simp [detectDateGaps_types currentYear documents w hw]

theorem filter_missing_amount (documents : List DocumentData) (pr : PairingResult) :
    (detectMissingPairs documents pr).filter
      (fun w => decide (w.type = WarningType.amount_anomaly)) = [] := by
  rw [List.filter_eq_nil_iff]
  intro w hw
  simp [detectMissingPairs_types documents pr w hw]

theorem filter_amount_amount (documents : List DocumentData) :
    (detectAmountAnomalies documents).filter
        (fun w => decide (w.type = WarningType.amount_anomaly))
      = detectAmountAnomalies documents := by
  rw [List.filter_eq_self]
  intro w hw
  simp [detectAmountAnomalies_types documents w hw]

theorem detectAnomalies_amountAnomaly (currentYear : Int) (documents : List DocumentData)
    (pairingResult : Option PairingResult) :
    (detectAnomalies currentYear documents pairingResult).filter
        (fun w => decide (w.type = WarningType.amount_anomaly))
      = detectAmountAnomalies documents := by
  cases pairingResult with
  | none =>
    unfold detectAnomalies
    rw [List.filter_append, List.filter_append, List.filter_append,
      filter_dup_amount, filter_amount_amount, filter_gaps_amount]
    simp
  | some pr =>
    unfold detectAnomalies
    rw [List.filter_append, List.filter_append, List.filter_append,
      filter_dup_amount, filter_amount_amount, filter_gaps_amount,
      filter_missing_amount]
    simp

theorem detectAmountAnomalies_hotelDocs : detectAmountAnomalies hotelDocs = [] := by
  have hsort : sortLE (fun a b => decide (a ≤ b)) ([100, 102, 105, 5000] : List ℚ)
      = [100, 102, 105, 5000] := by
    norm_num [sortLE, insertLE, decide_eq_true_eq]
  simp only [detectAmountAnomalies, hotelDocs, mkHotel, groupByKey, groupPush, List.foldl]
  norm_num [hsort, calculateAmountStats, isAmountAnomaly]

/-- C2 counterexample: on the scenario D record set — four hotel invoices of
100, 102, 105 and 5000 — `detectAnomalies` emits no `amount_anomaly` warning
at all, so in particular not exactly one high-severity warning for the 5000
invoice. -/
theorem amount_anomaly_scenarioD_counterexample :
    (detectAnomalies 2024 hotelDocs none).filter
        (fun w => decide (w.type = WarningType.amount_anomaly)) = []
    ∧ ((detectAnomalies 2024 hotelDocs none).filter
        (fun w => decide (w.type = WarningType.amount_anomaly))).length ≠ 1 := by
  have h := detectAnomalies_amountAnomaly 2024 hotelDocs none
  rw [detectAmountAnomalies_hotelDocs] at h
  exact ⟨h, by rw [h]; simp⟩

/-- C2 amended: with the code's quartile convention — `q1` is the sorted
amount at index `⌊n·0.25⌋` and `q3` the one at index `⌊n·0.75⌋` — the sorted
hotel amounts [100, 102, 105, 5000] give q1 = 102, q3 = 5000 (the 5000
outlier itself), IQR = 4898, and no amount lies outside the mild (1.5×IQR)
or far (3×IQR) fences, so `detectAnomalies` emits no `amount_anomaly`
warning for this record set — neither for 5000 nor for the other three. -/
theorem amount_anomaly_scenarioD_amended :
    calculateAmountStats [100, 102, 105, 5000] = ⟨5307/4, 207/2, 102, 5000, 4898, 100, 5000⟩
    ∧ isAmountAnomaly 5000 (calculateAmountStats [100, 102, 105, 5000]) = none
    ∧ detectAmountAnomalies hotelDocs = [] := by
  refine ⟨by norm_num [calculateAmountStats], ?_, detectAmountAnomalies_hotelDocs⟩
  norm_num [calculateAmountStats, isAmountAnomaly]

/-- C6: on scenario A — invoice 219.67 dated `11/03`, taxi, vendor 如祺出行
against a trip sheet 219.67 dated `11/03`, platform 如祺出行 — the amount
matches within 0.01 (+50), the calendar day is the same (+30) and the
platform name occurs in the invoice text (+20), so the match score is 100
and `pairDocuments` returns exactly one pair joining the two with
confidence 100 and empty unmatched lists. -/
theorem pairing_scenarioA :
    checkAmountMatch invA.amount tsA.amount = true
    ∧ checkDateProximity 2024 invA.date tsA.date = 30
    ∧ checkPlatformMatch invA tsA = true
    ∧ calculateMatchScore 2024 invA tsA = 100
    ∧ pairDocuments 2024 [invA, tsA] = ⟨[⟨"invA", "tsA", 100⟩], [], []⟩ := by
  have h1 : checkAmountMatch invA.amount tsA.amount = true := by
    norm_num [checkAmountMatch, invA, tsA]
  have h2 : checkDateProximity 2024 invA.date tsA.date = 30 := by decide
  have h3 : checkPlatformMatch invA tsA = true := by decide
  have hscore : calculateMatchScore 2024 invA tsA = 100 := by
    rw [calculateMatchScore, h1, h2, h3]
    norm_num
  have hfb : findBestMatch 2024 invA [tsA] [] = some (tsA, 100) := by
    simp [findBestMatch, scanTripSheets, hscore]
  refine ⟨h1, h2, h3, hscore, ?_⟩
  simp only [pairDocuments]
  rw [show [invA, tsA].filter
      (fun doc => decide (doc.documentType = DocumentType.invoice)) = [invA] by
    simp [invA, tsA]]
  rw [show [invA, tsA].filter
      (fun doc => decide (doc.documentType = DocumentType.trip_sheet)) = [tsA] by
    simp [invA, tsA]]
  simp only [pairInvoices, hfb]
  simp [invA, tsA]

/-! ## C8: the retry policy -/
theorem retry_step_stop {α : Type} (op : Nat → Except AIErr α) (c : Nat) (e : AIErr)
    (hop : op c = Except.error e) (h : ¬(e.retryable = true ∧ c < MAX_RETRIES)) :
    retryWithBackoff op c = (Except.error e, []) := by
  rw [retryWithBackoff, hop]
  dsimp only
  rw [dif_neg h]

theorem retry_step_go {α : Type} (op : Nat → Except AIErr α) (c : Nat) (e : AIErr)
    (hop : op c = Except.error e) (hr : e.retryable = true) (hc : c < MAX_RETRIES) :
    retryWithBackoff op c =
      ((retryWithBackoff op (c + 1)).1,
        INITIAL_RETRY_DELAY * 2 ^ c :: (retryWithBackoff op (c + 1)).2) := by
  rw [retryWithBackoff, hop]
  dsimp only
  rw [dif_pos ⟨hr, hc⟩]

theorem retryWithBackoff_nonretryable {α : Type} (op : Nat → Except AIErr α) (e : AIErr)
    (h0 : op 0 = Except.error e) (hr : e.retryable = false) :
    retryWithBackoff op 0 = (Except.error e, []) :=
  retry_step_stop op 0 e h0 (by simp [hr])

theorem retryWithBackoff_delays {α : Type} (op : Nat → Except AIErr α) :
    ∀ (n c : Nat), MAX_RETRIES - c = n →
      ∃ k, k ≤ n ∧ (retryWithBackoff op c).2 =
        (List.range' c k).map (fun i => INITIAL_RETRY_DELAY * 2 ^ i) := by
  intro n
  induction n with
  | zero =>
    intro c hc
    cases hop : op c with
    | ok a =>
      rw [retryWithBackoff, hop]
      exact ⟨0, Nat.le_refl 0, rfl⟩
    | error e =>
      rw [retry_step_stop op c e hop (by rintro ⟨-, hlt⟩; omega)]
      exact ⟨0, Nat.le_refl 0, rfl⟩
  | succ n ih =>
    intro c hc
    cases hop : op c with
    | ok a =>
      rw [retryWithBackoff, hop]
      exact ⟨0, Nat.zero_le _, rfl⟩
    | error e =>
      by_cases h : e.retryable = true ∧ c < MAX_RETRIES
      · rw [retry_step_go op c e hop h.1 h.2]
        rcases ih (c + 1) (by omega) with ⟨k, hk, hdel⟩
        refine ⟨k + 1, by omega, ?_⟩
        simp only [hdel, List.range'_succ, List.map_cons]
      · rw [retry_step_stop op c e hop h]
        exact ⟨0, Nat.zero_le _, rfl⟩

theorem retryWithBackoff_all_retryable {α : Type} (op : Nat → Except AIErr α)
    (h : ∀ i, i ≤ MAX_RETRIES → ∃ e, op i = Except.error e ∧ e.retryable = true) :
    ∀ (n c : Nat), MAX_RETRIES - c = n → c ≤ MAX_RETRIES →
      ∃ e, op MAX_RETRIES = Except.error e ∧
        retryWithBackoff op c =
          (Except.error e,
            (List.range' c (MAX_RETRIES - c)).map (fun i => INITIAL_RETRY_DELAY * 2 ^ i)) := by
  intro n
  induction n with
  | zero =>
    intro c hc hcle
    have hceq : c = MAX_RETRIES := by omega
    rcases h c hcle with ⟨e, hop, hr⟩
    refine ⟨e, by rw [← hceq]; exact hop, ?_⟩
    rw [retry_step_stop op c e hop (by rintro ⟨-, hlt⟩; omega), hc]
    rfl
  | succ n ih =>
    intro c hc hcle
    rcases h c hcle with ⟨e, hop, hr⟩
    rcases ih (c + 1) (by omega) (by omega) with ⟨e3, hop3, hrec⟩
    refine ⟨e3, hop3, ?_⟩
    rw [retry_step_go op c e hop hr (by omega), hrec]
    have hrange : MAX_RETRIES - c = (MAX_RETRIES - (c + 1)) + 1 := by omega
    rw [hrange, List.range'_succ, List.map_cons]

/-- C8: `retryWithBackoff` retries a retryable failure up to `MAX_RETRIES`
(= 3) times, waiting `INITIAL_RETRY_DELAY · 2^i` before the i-th retry (the
delay doubles from the 1000 ms base); a non-retryable failure is returned
immediately without any retry or wait; and when every attempt fails
retryably, exactly three retries happen with waits 1000, 2000, 4000 ms and
the final error is the fourth attempt's. -/
theorem retry_policy {α : Type} (op : Nat → Except AIErr α) :
    (∀ e, op 0 = Except.error e → e.retryable = false →
      retryWithBackoff op 0 = (Except.error e, []))
    ∧ (∃ k, k ≤ MAX_RETRIES ∧ (retryWithBackoff op 0).2 =
        (List.range k).map (fun i => INITIAL_RETRY_DELAY * 2 ^ i))
    ∧ ((∀ i, i ≤ MAX_RETRIES → ∃ e, op i = Except.error e ∧ e.retryable = true) →
        ∃ e, op MAX_RETRIES = Except.error e ∧
          retryWithBackoff op 0 = (Except.error e, [1000, 2000, 4000])) := by
  refine ⟨fun e h0 hr => retryWithBackoff_nonretryable op e h0 hr, ?_, ?_⟩
  · rcases retryWithBackoff_delays op MAX_RETRIES 0 rfl with ⟨k, hk, hdel⟩
    exact ⟨k, hk, by rw [hdel, List.range_eq_range']⟩
  · intro h
    rcases retryWithBackoff_all_retryable op h MAX_RETRIES 0 rfl (Nat.zero_le _) with
      ⟨e, hop, hrw⟩
    refine ⟨e, hop, ?_⟩
    rw [hrw]
    norm_num [MAX_RETRIES, INITIAL_RETRY_DELAY, List.range']

/-- Witness for C8: an operation whose every attempt is a retryable
rate-limit failure is retried three times with doubling delays. -/
theorem retry_policy_witness :
    ∃ e, (fun _ : Nat => (Except.error ⟨AIErrorType.RATE_LIMIT_EXCEEDED, true⟩ :
        Except AIErr Unit)) MAX_RETRIES = Except.error e ∧
      retryWithBackoff
        (fun _ : Nat => (Except.error ⟨AIErrorType.RATE_LIMIT_EXCEEDED, true⟩ :
          Except AIErr Unit)) 0 = (Except.error e, [1000, 2000, 4000]) :=
  (retry_policy (fun _ : Nat => (Except.error ⟨AIErrorType.RATE_LIMIT_EXCEEDED, true⟩ :
    Except AIErr Unit))).2.2
    (fun _ _ => ⟨⟨AIErrorType.RATE_LIMIT_EXCEEDED, true⟩, rfl, rfl⟩)

/-! ## C3: the configuration surface and the recognition loop -/
theorem runRecognition_foldl_eq (errId : Nat → String)
    (recognize : FileInput → Except String (List DocumentData)) :
    ∀ (l : List (Nat × FileInput)) (acc : List DocumentData × List (String × String)),
      l.foldl
        (fun acc p =>
          match recognize p.2 with
          | Except.ok ds => (acc.1 ++ ds, acc.2)
          | Except.error msg =>
            (acc.1 ++ [createErrorDocument (errId p.1) p.2 msg],
             acc.2 ++ [(p.2.originalname, msg)]))
        acc
      = (acc.1 ++ l.flatMap
          (fun p =>
            match recognize p.2 with
            | Except.ok ds => ds
            | Except.error msg => [createErrorDocument (errId p.1) p.2 msg]),
         acc.2 ++ l.filterMap
          (fun p =>
            match recognize p.2 with
            | Except.ok _ => none
            | Except.error msg => some (p.2.originalname, msg))) := by
  intro l
  induction l with
  | nil => intro acc; simp
  | cons p rest ih =>
    intro acc
    rw [List.foldl_cons, List.flatMap_cons, List.filterMap_cons]
    cases hp : recognize p.2 with
    | ok ds =>
      rw [ih]
      simp
    | error msg =>
      rw [ih]
      simp

theorem runRecognition_eq (errId : Nat → String)
    (recognize : FileInput → Except String (List DocumentData)) (files : List FileInput) :
    runRecognition errId recognize files
      = (files.enum.flatMap
          (fun p =>
            match recognize p.2 with
            | Except.ok ds => ds
            | Except.error msg => [createErrorDocument (errId p.1) p.2 msg]),
         files.enum.filterMap
          (fun p =>
            match recognize p.2 with
            | Except.ok _ => none
            | Except.error msg => some (p.2.originalname, msg))) := by
  unfold runRecognition
  rw [runRecognition_foldl_eq errId recognize files.enum ([], [])]
  simp

/-- C3 counterexample: two configurations differing in every field obtain the
same hard-coded per-call timeout (30000 ms), retry limit (3) and initial
backoff delay (1000 ms): the `APIConfig` surface — endpoint, key, model —
carries no concurrency bound, timeout, or retry count, so none of these is
an externally supplied parameter. -/
theorem config_surface_counterexample :
    (⟨"https://a.example", "key-one", "model-one"⟩ : APIConfig)
        ≠ ⟨"https://b.example", "key-two", "model-two"⟩
    ∧ requestTimeoutMs ⟨"https://a.example", "key-one", "model-one"⟩ = 30000
    ∧ requestTimeoutMs ⟨"https://b.example", "key-two", "model-two"⟩ = 30000
    ∧ retryLimitOf ⟨"https://a.example", "key-one", "model-one"⟩ = 3
    ∧ retryLimitOf ⟨"https://b.example", "key-two", "model-two"⟩ = 3
    ∧ initialRetryDelayOf ⟨"https://a.example", "key-one", "model-one"⟩ = 1000
    ∧ initialRetryDelayOf ⟨"https://b.example", "key-two", "model-two"⟩ = 1000 := by
  exact ⟨by decide, rfl, rfl, rfl, rfl, rfl, rfl⟩

/-- C3 amended: recognition calls are issued strictly sequentially by
`processBatch` — the accumulated record list is the in-order concatenation
of per-file results, one call at a time, with no configurable in-flight
bound — and the per-call timeout, the retry limit and the initial backoff
delay are the hard-coded `AIService` class constants 30000 ms, 3 and
1000 ms, identical for every supplied `APIConfig` (which consists only of
endpoint, key and model). -/
theorem recognition_sequential_and_constants :
    (∀ cfg : APIConfig,
      requestTimeoutMs cfg = 30000 ∧ retryLimitOf cfg = 3 ∧ initialRetryDelayOf cfg = 1000)
    ∧ (∀ cfg cfg' : APIConfig,
      requestTimeoutMs cfg = requestTimeoutMs cfg'
        ∧ retryLimitOf cfg = retryLimitOf cfg'
        ∧ initialRetryDelayOf cfg = initialRetryDelayOf cfg')
    ∧ (∀ (errId : Nat → String) (recognize : FileInput → Except String (List DocumentData))
        (files : List FileInput),
      (runRecognition errId recognize files).1
        = files.enum.flatMap
            (fun p =>
              match recognize p.2 with
              | Except.ok ds => ds
              | Except.error msg => [createErrorDocument (errId p.1) p.2 msg])) := by
  refine ⟨fun cfg => ⟨rfl, rfl, rfl⟩, fun cfg cfg' => ⟨rfl, rfl, rfl⟩, ?_⟩
  intro errId recognize files
  rw [runRecognition_eq]

/-- C1 (evaluating the code at the failing input): on a non-empty batch in
which every file fails recognition, `processBatch` does NOT abort — the
placeholder error documents keep `documents` non-empty, so the
`documents.length === 0` guard (whose comment announces "if all files
failed, throw") never fires, and the batch runs Matching, Sequencing and
Anomaly detection over the placeholders and returns a success result. -/
theorem processBatch_total_failure_proceeds :
    processBatch 2024 errId0 recFail [file1] = Except.ok batchW
    ∧ (processBatch 2024 errId0 recFail [file1]).isOk = true
    ∧ batchW.documents.length = 1
    ∧ (∀ d ∈ batchW.documents, d.status = DocumentStatus.error)
    ∧ batchW.pairs = pairDocuments 2024 batchW.documents
    ∧ batchW.sorting = sortDocuments 2024 batchW.documents batchW.pairs
    ∧ batchW.warnings = detectAnomalies 2024 batchW.documents (some batchW.pairs) := by
  refine ⟨rfl, rfl, rfl, ?_, rfl, rfl, rfl⟩
  intro d hd
  rcases List.mem_singleton.mp hd with rfl
  rfl

/-- C10: the placeholder record synthesised for a failed file is an Invoice
with amount 0, empty (unparseable) date, empty description, confidence 0,
status error and the failure message; its missing `invoiceType` defaults to
the `other` bucket; and `processBatch` appends every failed file's
placeholder to the record set, which is exactly the set handed to
`pairDocuments`, `sortDocuments` and `detectAnomalies`. -/
theorem error_placeholder_flows_downstream
    (id : String) (file : FileInput) (msg : String) (currentYear : Int)
    (errId : Nat → String) (recognize : FileInput → Except String (List DocumentData))
    (files : List FileInput) (r : BatchProcessResult)
    (hok : processBatch currentYear errId recognize files = Except.ok r) :
    (createErrorDocument id file msg).documentType = DocumentType.invoice
    ∧ (createErrorDocument id file msg).amount = 0
    ∧ (createErrorDocument id file msg).date = ""
    ∧ (createErrorDocument id file msg).description = ""
    ∧ (createErrorDocument id file msg).confidence = 0
    ∧ (createErrorDocument id file msg).status = DocumentStatus.error
    ∧ (createErrorDocument id file msg).errorMessage = some msg
    ∧ parseDate currentYear (createErrorDocument id file msg).date = none
    ∧ (createErrorDocument id file msg).invoiceType.getD InvoiceType.other = InvoiceType.other
    ∧ r.documents = (runRecognition errId recognize files).1
    ∧ (∀ i f m, (i, f) ∈ files.enum → recognize f = Except.error m →
        createErrorDocument (errId i) f m ∈ r.documents)
    ∧ r.pairs = pairDocuments currentYear r.documents
    ∧ r.sorting = sortDocuments currentYear r.documents r.pairs
    ∧ r.warnings = detectAnomalies currentYear r.documents (some r.pairs) := by
  have hfields :
      (createErrorDocument id file msg).documentType = DocumentType.invoice
      ∧ (createErrorDocument id file msg).amount = 0
      ∧ (createErrorDocument id file msg).date = ""
      ∧ (createErrorDocument id file msg).description = ""
      ∧ (createErrorDocument id file msg).confidence = 0
      ∧ (createErrorDocument id file msg).status = DocumentStatus.error
      ∧ (createErrorDocument id file msg).errorMessage = some msg :=
    ⟨rfl, rfl, rfl, rfl, rfl, rfl, rfl⟩
  simp only [processBatch] at hok
  by_cases hemp : (runRecognition errId recognize files).1.isEmpty = true
  · rw [if_pos hemp] at hok
    exact absurd hok (by simp)
  · rw [if_neg hemp] at hok
    have heq := Except.ok.inj hok
    rcases hfields with ⟨h1, h2, h3, h4, h5, h6, h7⟩
    refine ⟨h1, h2, h3, h4, h5, h6, h7, rfl, rfl, ?_, ?_, ?_, ?_, ?_⟩
    · rw [← heq]
    · intro i f m hmem hm
      rw [← heq]
      rw [runRecognition_eq]
      refine List.mem_flatMap.mpr ⟨(i, f), hmem, ?_⟩
      rw [hm]
      exact List.mem_singleton.mpr rfl
    · rw [← heq]
    · rw [← heq]
    · rw [← heq]

/-- Witness for C10: the placeholder of the failed single-file batch carries
the claimed field values and flows into the three reconciliation stages. -/
theorem error_placeholder_witness :
    processBatch 2024 errId0 recFail [file1] = Except.ok batchW
    ∧ ((createErrorDocument "error_0" file1 "AI识别错误: 识别失败").documentType
          = DocumentType.invoice
      ∧ (createErrorDocument "error_0" file1 "AI识别错误: 识别失败").amount = 0
      ∧ (createErrorDocument "error_0" file1 "AI识别错误: 识别失败").date = ""
      ∧ (createErrorDocument "error_0" file1 "AI识别错误: 识别失败").description = ""
      ∧ (createErrorDocument "error_0" file1 "AI识别错误: 识别失败").confidence = 0
      ∧ (createErrorDocument "error_0" file1 "AI识别错误: 识别失败").status
          = DocumentStatus.error
      ∧ (createErrorDocument "error_0" file1 "AI识别错误: 识别失败").errorMessage
          = some "AI识别错误: 识别失败"
      ∧ parseDate 2024 (createErrorDocument "error_0" file1 "AI识别错误: 识别失败").date = none
      ∧ (createErrorDocument "error_0" file1 "AI识别错误: 识别失败").invoiceType.getD
          InvoiceType.other = InvoiceType.other
      ∧ batchW.documents = (runRecognition errId0 recFail [file1]).1
      ∧ (∀ i f m, (i, f) ∈ ([file1] : List FileInput).enum → recFail f = Except.error m →
          createErrorDocument (errId0 i) f m ∈ batchW.documents)
      ∧ batchW.pairs = pairDocuments 2024 batchW.documents
      ∧ batchW.sorting = sortDocuments 2024 batchW.documents batchW.pairs
      ∧ batchW.warnings = detectAnomalies 2024 batchW.documents (some batchW.pairs)) :=
  ⟨rfl, error_placeholder_flows_downstream "error_0" file1 "AI识别错误: 识别失败" 2024
    errId0 recFail [file1] batchW rfl⟩

theorem createPairMap_foldl (ps : List PairingPair) :
    ∀ (acc : List (String × String)),
      ps.foldl
        (fun pairMap p =>
          pairMap ++ [(p.invoiceId, p.tripSheetId), (p.tripSheetId, p.invoiceId)]) acc
      = acc ++ pairBindings ps := by
  induction ps with
  | nil => intro acc; simp [pairBindings]
  | cons p rest ih =>
    intro acc
    rw [List.foldl_cons, ih]
    simp [pairBindings]

theorem createPairMap_eq (pairs : PairingResult) :
    createPairMap pairs = pairBindings pairs.pairs := by
  unfold createPairMap
  rw [createPairMap_foldl]
  simp

theorem pmLookup_none_of (ps : List PairingPair) (key : String)
    (hinv : key ∉ ps.map (·.invoiceId)) (htrip : key ∉ ps.map (·.tripSheetId)) :
    pmLookup (pairBindings ps) key = none := by
  induction ps with
  | nil => rfl
  | cons p rest ih =>
    simp only [pairBindings, List.flatMap_cons] at *
    rw [List.cons_append, List.cons_append]
    have h1 : p.invoiceId ≠ key := by
      intro hc
      exact hinv (by simp [← hc])
    have h2 : p.tripSheetId ≠ key := by
      intro hc
      exact htrip (by simp [← hc])
    rw [pmLookup, if_neg h1, pmLookup, if_neg h2]
    simp only [List.nil_append]
    exact ih (fun hc => hinv (by simp [hc])) (fun hc => htrip (by simp [hc]))

theorem pmLookup_inv_of (ps : List PairingPair) (key : String) (p : PairingPair)
    (hnd : (ps.map (·.invoiceId)).Nodup)
    (hnotrip : ∀ q ∈ ps, q.tripSheetId ≠ key)
    (hp : p ∈ ps) (hkey : p.invoiceId = key) :
    pmLookup (pairBindings ps) key = some p.tripSheetId := by
  induction ps with
  | nil => cases hp
  | cons q rest ih =>
    simp only [pairBindings, List.flatMap_cons, List.cons_append]
    by_cases hq : q.invoiceId = key
    · rw [pmLookup, if_pos hq]
      rcases List.mem_cons.mp hp with rfl | hpr
      · rfl
      · exfalso
        rw [List.map_cons, List.nodup_cons] at hnd
        exact hnd.1 (by
          rw [hq, ← hkey]
          exact List.mem_map_of_mem _ hpr)
    · rw [pmLookup, if_neg hq, pmLookup,
        if_neg (hnotrip q (List.mem_cons_self q rest))]
      simp only [List.nil_append]
      rcases List.mem_cons.mp hp with rfl | hpr
      · exact absurd hkey hq
      · rw [List.map_cons, List.nodup_cons] at hnd
        exact ih hnd.2 (fun q' hq' => hnotrip q' (List.mem_cons_of_mem _ hq')) hpr

theorem pmLookup_rev (ps : List PairingPair) (key v : String)
    (h : pmLookup (pairBindings ps) key = some v) :
    ∃ p ∈ ps, (p.invoiceId = key ∧ p.tripSheetId = v)
      ∨ (p.tripSheetId = key ∧ p.invoiceId = v) := by
  induction ps with
  | nil => cases h
  | cons q rest ih =>
    simp only [pairBindings, List.flatMap_cons, List.cons_append] at h
    by_cases hq : q.invoiceId = key
    · rw [pmLookup, if_pos hq] at h
      exact ⟨q, List.mem_cons_self q rest, Or.inl ⟨hq, Option.some.inj h⟩⟩
    · rw [pmLookup, if_neg hq] at h
      by_cases hq2 : q.tripSheetId = key
      · rw [pmLookup, if_pos hq2] at h
        exact ⟨q, List.mem_cons_self q rest, Or.inr ⟨hq2, Option.some.inj h⟩⟩
      · rw [pmLookup, if_neg hq2] at h
        simp only [List.nil_append] at h
        rcases ih h with ⟨p, hp, hcase⟩
        exact ⟨p, List.mem_cons_of_mem _ hp, hcase⟩

theorem find_id (docs : List DocumentData) (hn : (docs.map (·.id)).Nodup)
    (t : DocumentData) (ht : t ∈ docs) :
    docs.find? (fun x => decide (x.id = t.id)) = some t := by
  induction docs with
  | nil => cases ht
  | cons d rest ih =>
    rw [List.map_cons, List.nodup_cons] at hn
    rcases List.mem_cons.mp ht with rfl | htr
    · rw [List.find?_cons_of_pos _ (by simp)]
    · by_cases hdt : d.id = t.id
      · exfalso
        exact hn.1 (by rw [hdt]; exact List.mem_map_of_mem _ htr)
      · rw [List.find?_cons_of_neg _ (by simpa using hdt)]
        exact ih hn.2 htr

theorem invIds_nodup (documents : List DocumentData)
    (hn : (documents.map (·.id)).Nodup) : ((invDocs documents).map (·.id)).Nodup :=
  hn.sublist ((documents.filter_sublist).map _)

theorem tsIds_nodup (documents : List DocumentData)
    (hn : (documents.map (·.id)).Nodup) : ((tripDocs documents).map (·.id)).Nodup :=
  hn.sublist ((documents.filter_sublist).map _)

theorem invIds_tsIds_disjoint (documents : List DocumentData)
    (hn : (documents.map (·.id)).Nodup) :
    ∀ a ∈ (invDocs documents).map (·.id), a ∉ (tripDocs documents).map (·.id) := by
  have hnd := ((inv_trip_append_perm documents).nodup_iff).mpr hn
  exact (List.nodup_append.mp hnd).2.2

theorem pairDocuments_wf (currentYear : Int) (documents : List DocumentData)
    (hn : (documents.map (·.id)).Nodup) :
    PairingWf documents (pairDocuments currentYear documents).pairs := by
  have hsubl := pairInvoices_inv_sublist currentYear (tripDocs documents) (invDocs documents) []
  rcases pairInvoices_trip_spec currentYear (tripDocs documents) (invDocs documents) [] with
    ⟨htripmem, htripnd⟩
  refine ⟨(invIds_nodup documents hn).sublist hsubl, htripnd, ?_, ?_⟩
  · intro p hp
    exact hsubl.subset (List.mem_map_of_mem _ hp)
  · intro p hp
    exact (htripmem p hp).1

theorem paired_invoice_lookup (documents : List DocumentData) (ps : List PairingPair)
    (hn : (documents.map (·.id)).Nodup) (hwf : PairingWf documents ps)
    (p : PairingPair) (hp : p ∈ ps) (d : DocumentData) (hd : d ∈ invDocs documents)
    (hid : d.id = p.invoiceId) :
    pmLookup (pairBindings ps) d.id = some p.tripSheetId := by
  refine pmLookup_inv_of ps d.id p hwf.1 ?_ hp hid.symm
  intro q hq hc
  exact invIds_tsIds_disjoint documents hn d.id (List.mem_map_of_mem _ hd)
    (by rw [← hc]; exact hwf.2.2.2 q hq)

theorem unpaired_invoice_lookup (documents : List DocumentData) (ps : List PairingPair)
    (hn : (documents.map (·.id)).Nodup) (hwf : PairingWf documents ps)
    (d : DocumentData) (hd : d ∈ invDocs documents)
    (hnp : d.id ∉ ps.map (·.invoiceId)) :
    pmLookup (pairBindings ps) d.id = none := by
  refine pmLookup_none_of ps d.id hnp ?_
  intro hc
  rcases List.mem_map.mp hc with ⟨q, hq, hqid⟩
  exact invIds_tsIds_disjoint documents hn d.id (List.mem_map_of_mem _ hd)
    (by rw [← hqid]; exact hwf.2.2.2 q hq)

theorem pairedTripDoc_of_pair (documents : List DocumentData) (ps : List PairingPair)
    (hn : (documents.map (·.id)).Nodup) (hwf : PairingWf documents ps)
    (p : PairingPair) (hp : p ∈ ps) (d : DocumentData) (hd : d ∈ invDocs documents)
    (hid : d.id = p.invoiceId) (hne : p.tripSheetId ≠ "") :
    ∃ ts, pairedTripDoc documents (pairBindings ps) d = some ts
      ∧ ts ∈ tripDocs documents ∧ ts.id = p.tripSheetId := by
  rcases List.mem_map.mp (hwf.2.2.2 p hp) with ⟨ts, hts, htsid⟩
  refine ⟨ts, ?_, hts, htsid⟩
  unfold pairedTripDoc
  rw [paired_invoice_lookup documents ps hn hwf p hp d hd hid, Option.some_bind,
    if_neg hne, ← htsid]
  exact find_id documents hn ts (List.mem_of_mem_filter hts)

theorem pairedTripDoc_none (documents : List DocumentData) (ps : List PairingPair)
    (hn : (documents.map (·.id)).Nodup) (hwf : PairingWf documents ps)
    (d : DocumentData) (hd : d ∈ invDocs documents)
    (hnp : d.id ∉ ps.map (·.invoiceId)) :
    pairedTripDoc documents (pairBindings ps) d = none := by
  unfold pairedTripDoc
  rw [unpaired_invoice_lookup documents ps hn hwf d hd hnp]
  rfl

theorem pairedTripDoc_some_rev (documents : List DocumentData) (ps : List PairingPair)
    (hn : (documents.map (·.id)).Nodup) (hwf : PairingWf documents ps)
    (d : DocumentData) (hd : d ∈ invDocs documents) (x : DocumentData)
    (h : pairedTripDoc documents (pairBindings ps) d = some x) :
    ∃ p ∈ ps, p.invoiceId = d.id ∧ x ∈ documents ∧ x.id = p.tripSheetId := by
  unfold pairedTripDoc at h
  cases hlk : pmLookup (pairBindings ps) d.id with
  | none => rw [hlk] at h; cases h
  | some tsId =>
    rw [hlk, Option.some_bind] at h
    by_cases he : tsId = ""
    · rw [if_pos he] at h
      cases h
    rw [if_neg he] at h
    have hxmem : x ∈ documents := List.mem_of_find?_eq_some h
    have hxid : x.id = tsId := by simpa using List.find?_some h
    rcases pmLookup_rev ps d.id tsId hlk with ⟨p, hp, hcase | hcase⟩
    · exact ⟨p, hp, hcase.1, hxmem, by rw [hxid, hcase.2]⟩
    · exfalso
      exact invIds_tsIds_disjoint documents hn d.id (List.mem_map_of_mem _ hd)
        (by rw [← hcase.1]; exact hwf.2.2.2 p hp)

theorem invoice_lookup_trip (documents : List DocumentData) (ps : List PairingPair)
    (hn : (documents.map (·.id)).Nodup) (hwf : PairingWf documents ps) :
    ∀ d ∈ documents, d.documentType = DocumentType.invoice →
      ∀ v, pmLookup (pairBindings ps) d.id = some v →
        v ∈ (tripDocs documents).map (·.id) := by
  intro d hd hinv v hlk
  rcases pmLookup_rev ps d.id v hlk with ⟨p, hp, hcase | hcase⟩
  · rw [← hcase.2]
    exact hwf.2.2.2 p hp
  · exfalso
    have hdinv : d ∈ invDocs documents := by
      unfold invDocs
      rw [List.mem_filter]
      exact ⟨hd, by simp [hinv]⟩
    exact invIds_tsIds_disjoint documents hn d.id
      (List.mem_map_of_mem _ hdinv) (by rw [← hcase.1]; exact hwf.2.2.2 p hp)

theorem groupInvoiceStep_skip (documents : List DocumentData) (pm : List (String × String))
    (acc : GroupAcc) (d : DocumentData) (hne : ¬ d.documentType = DocumentType.invoice) :
    groupInvoiceStep documents pm acc d = acc := by
  unfold groupInvoiceStep
  by_cases hmem : d.id ∈ acc.processed
  · rw [if_pos hmem]
  · rw [if_neg hmem, if_neg hne]

theorem groupInvoiceStep_invoice (documents : List DocumentData) (pm : List (String × String))
    (acc : GroupAcc) (d : DocumentData)
    (hinv : d.documentType = DocumentType.invoice) (hnp : d.id ∉ acc.processed) :
    groupInvoiceStep documents pm acc d =
      ⟨addToGroup acc.groups (d.invoiceType.getD InvoiceType.other) (unitDocs documents pm d),
       acc.processed ++ (unitDocs documents pm d).map (·.id)⟩ := by
  unfold groupInvoiceStep
  rw [if_neg hnp, if_pos hinv]
  unfold unitDocs pairedTripDoc
  cases hlk : pmLookup pm d.id with
  | none => simp [hlk]
  | some tsId =>
    by_cases he : tsId = ""
    · simp [hlk, he]
    · cases hf : documents.find? (fun x => decide (x.id = tsId)) with
      | none => simp [hlk, he, hf]
      | some ts =>
        have hts : ts.id = tsId := by simpa using List.find?_some hf
        simp [hlk, he, hf, hts]

theorem groupInvoice_fold (documents : List DocumentData) (pm : List (String × String))
    (hn : (documents.map (·.id)).Nodup)
    (htr : ∀ d ∈ documents, d.documentType = DocumentType.invoice →
      ∀ v, pmLookup pm d.id = some v → v ∈ (tripDocs documents).map (·.id)) :
    ∀ ds : List DocumentData, List.Sublist ds documents →
      ∀ acc : GroupAcc,
      (∀ d ∈ ds, d.documentType = DocumentType.invoice → d.id ∉ acc.processed) →
      (ds.foldl (groupInvoiceStep documents pm) acc).groups
        = (fun t => acc.groups t
            ++ (ds.filter (fun d => decide (d.documentType = DocumentType.invoice)
                && decide (d.invoiceType.getD InvoiceType.other = t))).flatMap
              (unitDocs documents pm))
      ∧ (ds.foldl (groupInvoiceStep documents pm) acc).processed
        = acc.processed
            ++ (ds.filter (fun d => decide (d.documentType = DocumentType.invoice))).flatMap
              (fun d => (unitDocs documents pm d).map (·.id)) := by
  intro ds
  induction ds with
  | nil =>
    intro _ acc _
    exact ⟨funext fun t => by simp, by simp⟩
  | cons d rest ih =>
    intro hsub acc hfresh
    have hrestsub : List.Sublist rest documents :=
      (List.Sublist.cons d (List.Sublist.refl rest)).trans hsub
    have hdsnd : ((d :: rest).map (·.id)).Nodup := hn.sublist (hsub.map _)
    rw [List.map_cons, List.nodup_cons] at hdsnd
    by_cases hinv : d.documentType = DocumentType.invoice
    · have hnp : d.id ∉ acc.processed := hfresh d (List.mem_cons_self d rest) hinv
      rw [List.foldl_cons, groupInvoiceStep_invoice documents pm acc d hinv hnp]
      have hfresh' : ∀ d' ∈ rest, d'.documentType = DocumentType.invoice →
          d'.id ∉ acc.processed ++ (unitDocs documents pm d).map (·.id) := by
        intro d' hd' hinv'
        rw [List.mem_append]
        rintro (h | h)
        · exact hfresh d' (List.mem_cons_of_mem d hd') hinv' h
        · unfold unitDocs at h
          rw [List.map_cons, List.mem_cons] at h
          rcases h with h | h
          · exact hdsnd.1 (h ▸ List.mem_map_of_mem _ hd')
          · rcases List.mem_map.mp h with ⟨ts, hts, htsid⟩
            rcases Option.mem_toList.mp hts with htd
            unfold pairedTripDoc at htd
            rcases Option.bind_eq_some.mp htd with ⟨tsId, hlk, hf⟩
            by_cases he : tsId = ""
            · rw [if_pos he] at hf
              cases hf
            rw [if_neg he] at hf
            have h1 : ts.id = tsId := by simpa using List.find?_some hf
            have h2 : tsId ∈ (tripDocs documents).map (·.id) :=
              htr d (hsub.subset (List.mem_cons_self d rest)) hinv tsId hlk
            have h3 : d' ∈ invDocs documents := by
              unfold invDocs
              rw [List.mem_filter]
              exact ⟨hrestsub.subset hd', by simp [hinv']⟩
            exact invIds_tsIds_disjoint documents hn d'.id (List.mem_map_of_mem _ h3)
              (by rw [← htsid, h1]; exact h2)
      rcases ih hrestsub
        ⟨addToGroup acc.groups (d.invoiceType.getD InvoiceType.other)
          (unitDocs documents pm d),
         acc.processed ++ (unitDocs documents pm d).map (·.id)⟩ hfresh' with ⟨hg, hp⟩
      constructor
      · funext t
        rw [hg]
        by_cases ht : d.invoiceType.getD InvoiceType.other = t
        · simp [addToGroup, List.filter_cons, hinv, ht, List.flatMap_cons, List.append_assoc]
        · have ht' : ¬(t = d.invoiceType.getD InvoiceType.other) := fun hc => ht hc.symm
          simp [addToGroup, List.filter_cons, hinv, ht, ht']
      · rw [hp]
        simp [List.filter_cons, hinv, List.flatMap_cons, List.append_assoc]
    · rw [List.foldl_cons, groupInvoiceStep_skip documents pm acc d hinv]
      rcases ih hrestsub acc (fun d' hd' h' => hfresh d' (List.mem_cons_of_mem d hd') h') with
        ⟨hg, hp⟩
      constructor
      · funext t
        rw [hg]
        simp [List.filter_cons, hinv]
      · rw [hp]
        simp [List.filter_cons, hinv]

theorem groupTrip_fold (documents : List DocumentData)
    (hn : (documents.map (·.id)).Nodup) :
    ∀ ds : List DocumentData, List.Sublist ds documents →
      ∀ acc : GroupAcc,
      (ds.foldl groupTripStep acc).groups
        = fun t => if t = InvoiceType.other
            then acc.groups InvoiceType.other
              ++ ds.filter (fun d => decide (d.documentType = DocumentType.trip_sheet)
                  && decide (d.id ∉ acc.processed))
            else acc.groups t := by
  intro ds
  induction ds with
  | nil =>
    intro _ acc
    funext t
    by_cases ht : t = InvoiceType.other <;> simp [ht]
  | cons d rest ih =>
    intro hsub acc
    have hrestsub : List.Sublist rest documents :=
      (List.Sublist.cons d (List.Sublist.refl rest)).trans hsub
    have hdsnd : ((d :: rest).map (·.id)).Nodup := hn.sublist (hsub.map _)
    rw [List.map_cons, List.nodup_cons] at hdsnd
    rw [List.foldl_cons]
    by_cases hcond : d.documentType = DocumentType.trip_sheet ∧ d.id ∉ acc.processed
    · have hstep : groupTripStep acc d =
          ⟨addToGroup acc.groups InvoiceType.other [d], acc.processed ++ [d.id]⟩ := by
        unfold groupTripStep
        rw [if_pos hcond]
      rw [hstep, ih hrestsub _]
      funext t
      have hfilter : rest.filter (fun d' => decide (d'.documentType = DocumentType.trip_sheet)
            && decide (d'.id ∉ acc.processed ++ [d.id]))
          = rest.filter (fun d' => decide (d'.documentType = DocumentType.trip_sheet)
            && decide (d'.id ∉ acc.processed)) := by
        apply List.filter_congr
        intro d' hd'
        have hne : d'.id ≠ d.id := by
          intro hc
          exact hdsnd.1 (hc ▸ List.mem_map_of_mem _ hd')
        simp only [List.mem_append, List.mem_singleton, hne, or_false]
      by_cases ht : t = InvoiceType.other
      · simp only [if_pos ht, hfilter, addToGroup, if_pos (ht ▸ rfl : t = InvoiceType.other)]
        rw [List.filter_cons, if_pos (by simp [hcond.1, hcond.2]), List.append_assoc,
          List.singleton_append]
        simp [ht]
        rw [if_pos hcond]
      · simp only [if_neg ht, addToGroup, if_neg ht]
    · have hstep : groupTripStep acc d = acc := by
        unfold groupTripStep
        rw [if_neg hcond]
      rw [hstep, ih hrestsub acc]
      funext t
      by_cases ht : t = InvoiceType.other
      · rw [if_pos ht, if_pos ht, List.filter_cons, if_neg (by
          intro hc
          simp only [Bool.and_eq_true, decide_eq_true_eq] at hc
          exact hcond ⟨hc.1, hc.2⟩)]
      · rw [if_neg ht, if_neg ht]

theorem groupByExpenseType_eq (documents : List DocumentData) (pm : List (String × String))
    (hn : (documents.map (·.id)).Nodup)
    (htr : ∀ d ∈ documents, d.documentType = DocumentType.invoice →
      ∀ v, pmLookup pm d.id = some v → v ∈ (tripDocs documents).map (·.id)) :
    groupByExpenseType documents pm = bucketOf documents pm := by
  unfold groupByExpenseType
  rcases groupInvoice_fold documents pm hn htr documents (List.Sublist.refl _)
    ⟨fun _ => [], []⟩ (by intro d _ _ hc; cases hc) with ⟨hg1, hp1⟩
  rw [groupTrip_fold documents hn documents (List.Sublist.refl _) _]
  funext t
  rw [hg1, hp1]
  simp only [List.nil_append]
  by_cases ht : t = InvoiceType.other
  · rw [if_pos ht, ht]
    unfold bucketOf looseTrips pass1Ids invDocs
    rw [if_pos rfl]
  · rw [if_neg ht]
    unfold bucketOf
    rw [if_neg ht, List.append_nil]

/-! ## C5: suggested order is a permutation with pairs adjacent -/
theorem count_flatMap {α β : Type} [DecidableEq β] (l : List α) (f : α → List β) (b : β) :
    (l.flatMap f).count b = (l.map (fun a => (f a).count b)).sum := by
  induction l with
  | nil => rfl
  | cons a t ih => simp [List.flatMap_cons, List.count_append, ih]

theorem sum_map_ite_mem {α : Type} [DecidableEq α] (ts : List α) (c : α) (m : Nat)
    (hts : ts.Nodup) :
    (ts.map (fun t => if c = t then m else 0)).sum = if c ∈ ts then m else 0 := by
  induction ts with
  | nil => simp
  | cons t rest ih =>
    rw [List.nodup_cons] at hts
    by_cases hct : c = t
    · subst hct
      simp [hts.1, ih hts.2]
    · simp only [List.map_cons, List.sum_cons, if_neg hct, ih hts.2, List.mem_cons]
      simp [hct]

theorem count_filter_key {α κ : Type} [DecidableEq α] [DecidableEq κ] (k : α → κ) (l : List α)
    (t : κ) (a : α) :
    (l.filter (fun x => decide (k x = t))).count a = if k a = t then l.count a else 0 := by
  induction l with
  | nil => simp
  | cons x rest ih =>
    by_cases hx : k x = t
    · rw [List.filter_cons_of_pos (by simp [hx]), List.count_cons, List.count_cons, ih]
      by_cases hax : x = a
      · subst hax
        simp [hx]
      · simp [hax]
    · rw [List.filter_cons_of_neg (by simp [hx]), ih, List.count_cons]
      by_cases hax : x = a
      · subst hax
        simp [hx]
      · simp [hax]

theorem flatMap_filter_key_perm {α κ : Type} [DecidableEq α] [DecidableEq κ]
    (ts : List κ) (k : α → κ) (l : List α) (hts : ts.Nodup)
    (hmem : ∀ x ∈ l, k x ∈ ts) :
    List.Perm (ts.flatMap (fun t => l.filter (fun x => decide (k x = t)))) l := by
  apply List.perm_iff_count.mpr
  intro a
  rw [count_flatMap]
  have hmap : ts.map (fun t => (l.filter (fun x => decide (k x = t))).count a)
      = ts.map (fun t => if k a = t then l.count a else 0) :=
    List.map_congr_left (fun t _ => count_filter_key k l t a)
  rw [hmap, sum_map_ite_mem ts (k a) (l.count a) hts]
  by_cases hal : a ∈ l
  · rw [if_pos (hmem a hal)]
  · have h0 : l.count a = 0 := List.count_eq_zero.mpr hal
    simp [h0]

theorem typeOrder_nodup : typeOrder.Nodup := by decide

theorem mem_typeOrder (t : InvoiceType) : t ∈ typeOrder := by
  cases t <;> simp [typeOrder]

theorem flatMap_congr_mem {α β : Type} (l : List α) (f g : α → List β)
    (h : ∀ a ∈ l, f a = g a) : l.flatMap f = l.flatMap g := by
  induction l with
  | nil => rfl
  | cons a t ih =>
    rw [List.flatMap_cons, List.flatMap_cons, h a (List.mem_cons_self a t),
      ih (fun a' ha' => h a' (List.mem_cons_of_mem a ha'))]

theorem pmLookup_pairBindings_head (p : PairingPair) (rest : List PairingPair) :
    pmLookup (pairBindings (p :: rest)) p.invoiceId = some p.tripSheetId := by
  simp only [pairBindings, List.flatMap_cons, List.cons_append]
  rw [pmLookup, if_pos rfl]

theorem pmLookup_pairBindings_cons_ne (p : PairingPair) (rest : List PairingPair)
    (key : String) (h1 : p.invoiceId ≠ key) (h2 : p.tripSheetId ≠ key) :
    pmLookup (pairBindings (p :: rest)) key = pmLookup (pairBindings rest) key := by
  simp only [pairBindings, List.flatMap_cons, List.cons_append]
  rw [pmLookup, if_neg h1, pmLookup, if_neg h2, List.nil_append]

theorem pairedTsIds_perm_aux (documents : List DocumentData)
    (hn : (documents.map (·.id)).Nodup) :
    ∀ ps : List PairingPair, ∀ invs : List DocumentData,
      (∀ d ∈ invs, d ∈ invDocs documents) →
      ((invs.map (·.id)).Nodup) →
      ((ps.map (·.invoiceId)).Nodup) →
      (∀ p ∈ ps, p.tripSheetId ∈ (tripDocs documents).map (·.id)) →
      (∀ p ∈ ps, p.invoiceId ∈ invs.map (·.id)) →
      List.Perm
        (invs.flatMap
          (fun d => ((pairedTripDoc documents (pairBindings ps) d).toList).map (·.id)))
        ((ps.filter (fun q => !decide (q.tripSheetId = ""))).map (·.tripSheetId)) := by
  intro ps
  induction ps with
  | nil =>
    intro invs _ _ _ _ _
    have hz : ∀ d ∈ invs,
        ((pairedTripDoc documents (pairBindings ([] : List PairingPair)) d).toList).map
          (fun x : DocumentData => x.id) = [] := by
      intro d _
      rfl
    rw [flatMap_congr_mem _ _ _ hz]
    simp
  | cons p rest ih =>
    intro invs hsub hinvnd hpsnd hpsts hpsinv
    have hpsnd' := hpsnd
    rw [List.map_cons, List.nodup_cons] at hpsnd'
    rcases List.mem_map.mp (hpsinv p (List.mem_cons_self p rest)) with ⟨d0, hd0, hd0id⟩
    rcases List.append_of_mem hd0 with ⟨L1, L2, rfl⟩
    have hmapnd := hinvnd
    rw [List.map_append, List.map_cons] at hmapnd
    have hd0L1 : d0.id ∉ L1.map (·.id) := by
      intro hc
      exact (List.nodup_append.mp hmapnd).2.2 hc (List.mem_cons_self _ _)
    have hd0L2 : d0.id ∉ L2.map (·.id) :=
      (List.nodup_cons.mp (List.nodup_append.mp hmapnd).2.1).1
    have hsame : ∀ d ∈ L1 ++ L2,
        ((pairedTripDoc documents (pairBindings (p :: rest)) d).toList).map
            (fun x : DocumentData => x.id)
          = ((pairedTripDoc documents (pairBindings rest) d).toList).map
            (fun x : DocumentData => x.id) := by
      intro d hd
      have hne1 : p.invoiceId ≠ d.id := by
        intro hc
        rw [← hd0id] at hc
        rcases List.mem_append.mp hd with hd1 | hd2
        · exact hd0L1 (hc ▸ List.mem_map_of_mem _ hd1)
        · exact hd0L2 (hc ▸ List.mem_map_of_mem _ hd2)
      have hne2 : p.tripSheetId ≠ d.id := by
        intro hc
        have hdinv : d ∈ invDocs documents :=
          hsub d (by
            rcases List.mem_append.mp hd with hd1 | hd2
            · exact List.mem_append_left _ hd1
            · exact List.mem_append_right _ (List.mem_cons_of_mem _ hd2))
        exact invIds_tsIds_disjoint documents hn d.id (List.mem_map_of_mem _ hdinv)
          (hc ▸ hpsts p (List.mem_cons_self p rest))
      unfold pairedTripDoc
      rw [pmLookup_pairBindings_cons_ne p rest d.id hne1 hne2]
    have hrest := ih (L1 ++ L2)
      (fun d hd => hsub d (by
        rcases List.mem_append.mp hd with hd1 | hd2
        · exact List.mem_append_left _ hd1
        · exact List.mem_append_right _ (List.mem_cons_of_mem _ hd2)))
      (by
        have hsubl : List.Sublist ((L1 ++ L2).map (·.id))
            ((L1 ++ d0 :: L2).map (·.id)) := by
          rw [List.map_append, List.map_append, List.map_cons]
          exact List.Sublist.append (List.Sublist.refl _)
            (List.Sublist.cons _ (List.Sublist.refl _))
        exact hinvnd.sublist hsubl)
      hpsnd'.2
      (fun q hq => hpsts q (List.mem_cons_of_mem _ hq))
      (fun q hq => by
        have hmem := hpsinv q (List.mem_cons_of_mem _ hq)
        rw [List.map_append, List.map_cons] at hmem
        rw [List.map_append]
        rcases List.mem_append.mp hmem with h1 | h2
        · exact List.mem_append_left _ h1
        · rcases List.mem_cons.mp h2 with heq | h3
          · exfalso
            have hqp : q.invoiceId ≠ p.invoiceId := by
              intro hc
              apply hpsnd'.1
              rw [← hc]
              exact List.mem_map_of_mem _ hq
            exact hqp (by rw [heq, hd0id])
          · exact List.mem_append_right _ h3)
    by_cases hptse : p.tripSheetId = ""
    · have hchunk0 : ((pairedTripDoc documents (pairBindings (p :: rest)) d0).toList).map
          (fun x : DocumentData => x.id) = [] := by
        unfold pairedTripDoc
        rw [hd0id, pmLookup_pairBindings_head p rest, Option.some_bind, if_pos hptse]
        rfl
      rw [List.flatMap_append, List.flatMap_cons, hchunk0,
        flatMap_congr_mem L1 _ _ (fun d hd => hsame d (List.mem_append_left _ hd)),
        flatMap_congr_mem L2 _ _ (fun d hd => hsame d (List.mem_append_right _ hd)),
        List.nil_append, ← List.flatMap_append,
        List.filter_cons_of_neg (by simp [hptse])]
      exact hrest
    · have hchunk : ((pairedTripDoc documents (pairBindings (p :: rest)) d0).toList).map
          (fun x : DocumentData => x.id) = [p.tripSheetId] := by
        unfold pairedTripDoc
        rw [hd0id, pmLookup_pairBindings_head p rest, Option.some_bind, if_neg hptse]
        rcases List.mem_map.mp (hpsts p (List.mem_cons_self p rest)) with ⟨ts, hts, htsid⟩
        rw [← htsid, find_id documents hn ts (List.mem_of_mem_filter hts)]
        simp [htsid]
      rw [List.flatMap_append, List.flatMap_cons, hchunk,
        flatMap_congr_mem L1 _ _ (fun d hd => hsame d (List.mem_append_left _ hd)),
        flatMap_congr_mem L2 _ _ (fun d hd => hsame d (List.mem_append_right _ hd)),
        List.filter_cons_of_pos (by simp [hptse]), List.map_cons, List.singleton_append]
      have hmid : List.Perm
          (L1.flatMap (fun d => ((pairedTripDoc documents (pairBindings rest) d).toList).map
              (fun x : DocumentData => x.id))
            ++ p.tripSheetId
              :: L2.flatMap (fun d => ((pairedTripDoc documents (pairBindings rest) d).toList).map
                (fun x : DocumentData => x.id)))
          (p.tripSheetId :: (L1 ++ L2).flatMap
            (fun d => ((pairedTripDoc documents (pairBindings rest) d).toList).map
              (fun x : DocumentData => x.id))) := by
        rw [List.flatMap_append]
        exact List.perm_middle
      exact hmid.trans (hrest.cons p.tripSheetId)

theorem mem_pass1Ids (documents : List DocumentData) (pm : List (String × String)) (x : String) :
    x ∈ pass1Ids documents pm ↔
      x ∈ (invDocs documents).map (·.id) ∨ x ∈ pairedTsIdsOf documents pm := by
  unfold pass1Ids pairedTsIdsOf
  constructor
  · intro hx
    rcases List.mem_flatMap.mp hx with ⟨d, hd, hxd⟩
    unfold unitDocs at hxd
    rw [List.map_cons] at hxd
    rcases List.mem_cons.mp hxd with rfl | hxd
    · exact Or.inl (List.mem_map_of_mem _ hd)
    · exact Or.inr (List.mem_flatMap.mpr ⟨d, hd, hxd⟩)
  · intro hx
    rcases hx with hx | hx
    · rcases List.mem_map.mp hx with ⟨d, hd, rfl⟩
      refine List.mem_flatMap.mpr ⟨d, hd, ?_⟩
      unfold unitDocs
      rw [List.map_cons]
      exact List.mem_cons_self _ _
    · rcases List.mem_flatMap.mp hx with ⟨d, hd, hxd⟩
      refine List.mem_flatMap.mpr ⟨d, hd, ?_⟩
      unfold unitDocs
      rw [List.map_cons]
      exact List.mem_cons_of_mem _ hxd

theorem looseTrips_filter_trips (documents : List DocumentData)
    (pm : List (String × String)) :
    looseTrips documents pm
      = (tripDocs documents).filter (fun d => decide (d.id ∉ pass1Ids documents pm)) := by
  unfold looseTrips tripDocs
  rw [List.filter_filter]
  exact List.filter_congr (fun d _ => Bool.and_comm _ _)

theorem looseTrips_eq_ps (documents : List DocumentData) (ps : List PairingPair)
    (hn : (documents.map (·.id)).Nodup) (hwf : PairingWf documents ps) :
    looseTrips documents (pairBindings ps)
      = (tripDocs documents).filter (fun d => decide (d.id ∉
          (ps.filter (fun q => !decide (q.tripSheetId = ""))).map (·.tripSheetId))) := by
  have hperm := pairedTsIds_perm_aux documents hn ps (invDocs documents)
    (fun d hd => hd) (invIds_nodup documents hn) hwf.1 hwf.2.2.2 hwf.2.2.1
  rw [looseTrips_filter_trips]
  apply List.filter_congr
  intro d hd
  have hiff : d.id ∈ pass1Ids documents (pairBindings ps)
      ↔ d.id ∈ (ps.filter (fun q => !decide (q.tripSheetId = ""))).map (·.tripSheetId) := by
    rw [mem_pass1Ids]
    constructor
    · rintro (h | h)
      · exact absurd (List.mem_map_of_mem (fun x : DocumentData => x.id) hd)
          (fun hc => invIds_tsIds_disjoint documents hn d.id h hc)
      · exact (hperm.mem_iff).mp h
    · intro h
      refine Or.inr ?_
      unfold pairedTsIdsOf
      exact (hperm.mem_iff).mpr h
  simp [hiff]

theorem trip_ids_partition (documents : List DocumentData) (ps : List PairingPair)
    (hn : (documents.map (·.id)).Nodup) (hwf : PairingWf documents ps) :
    List.Perm
      ((ps.filter (fun q => !decide (q.tripSheetId = ""))).map (·.tripSheetId)
        ++ (looseTrips documents (pairBindings ps)).map (·.id))
      ((tripDocs documents).map (·.id)) := by
  rw [looseTrips_eq_ps documents ps hn hwf,
    map_filter_comp (fun d : DocumentData => d.id)
      (fun x => decide (x ∉
        (ps.filter (fun q => !decide (q.tripSheetId = ""))).map (·.tripSheetId))) _]
  refine filter_mem_perm (hwf.2.1.sublist ((List.filter_sublist _).map _))
    (tsIds_nodup documents hn) ?_
  intro x hx
  rcases List.mem_map.mp hx with ⟨p, hp, rfl⟩
  exact hwf.2.2.2 p (List.mem_of_mem_filter hp)

theorem flatMap_bucketOf_eq (documents : List DocumentData) (pm : List (String × String)) :
    typeOrder.flatMap (bucketOf documents pm)
      = typeOrder.flatMap
          (fun t => (documents.filter (fun d =>
              decide (d.documentType = DocumentType.invoice)
                && decide (d.invoiceType.getD InvoiceType.other = t))).flatMap
            (unitDocs documents pm))
        ++ looseTrips documents pm := by
  simp [typeOrder, bucketOf, List.append_assoc]

theorem flatMap_cat_perm (documents : List DocumentData) (pm : List (String × String)) :
    List.Perm
      (typeOrder.flatMap
        (fun t => (documents.filter (fun d =>
            decide (d.documentType = DocumentType.invoice)
              && decide (d.invoiceType.getD InvoiceType.other = t))).flatMap
          (unitDocs documents pm)))
      ((invDocs documents).flatMap (unitDocs documents pm)) := by
  have h1 : ∀ t : InvoiceType, documents.filter (fun d =>
        decide (d.documentType = DocumentType.invoice)
          && decide (d.invoiceType.getD InvoiceType.other = t))
      = (invDocs documents).filter
          (fun d => decide (d.invoiceType.getD InvoiceType.other = t)) := by
    intro t
    unfold invDocs
    rw [List.filter_filter]
    exact List.filter_congr (fun d _ => Bool.and_comm _ _)
  rw [flatMap_congr_mem _ _
    (fun t => ((invDocs documents).filter
      (fun d => decide (d.invoiceType.getD InvoiceType.other = t))).flatMap
        (unitDocs documents pm))
    (fun t _ => by rw [h1 t]), ← List.flatMap_assoc]
  exact List.Perm.flatMap_right (unitDocs documents pm)
    (flatMap_filter_key_perm typeOrder (fun d => d.invoiceType.getD InvoiceType.other)
      (invDocs documents) typeOrder_nodup (fun x _ => mem_typeOrder _))

theorem bucket_partition_ids (documents : List DocumentData) (ps : List PairingPair)
    (hn : (documents.map (·.id)).Nodup) (hwf : PairingWf documents ps) :
    List.Perm ((typeOrder.flatMap (bucketOf documents (pairBindings ps))).map (·.id))
      (documents.map (·.id)) := by
  have hperm0 : List.Perm (pairedTsIdsOf documents (pairBindings ps))
      ((ps.filter (fun q => !decide (q.tripSheetId = ""))).map (·.tripSheetId)) :=
    pairedTsIds_perm_aux documents hn ps (invDocs documents)
      (fun d hd => hd) (invIds_nodup documents hn) hwf.1 hwf.2.2.2 hwf.2.2.1
  rw [flatMap_bucketOf_eq, List.map_append]
  have h1 : List.Perm
      ((typeOrder.flatMap
        (fun t => (documents.filter (fun d =>
            decide (d.documentType = DocumentType.invoice)
              && decide (d.invoiceType.getD InvoiceType.other = t))).flatMap
          (unitDocs documents (pairBindings ps)))).map (·.id))
      (((invDocs documents).flatMap (unitDocs documents (pairBindings ps))).map (·.id)) :=
    (flatMap_cat_perm documents (pairBindings ps)).map _
  have h2 : List.Perm
      (((invDocs documents).flatMap (unitDocs documents (pairBindings ps))).map (·.id))
      ((invDocs documents).map (·.id) ++ pairedTsIdsOf documents (pairBindings ps)) := by
    rw [List.map_flatMap]
    have hunit : ∀ d ∈ invDocs documents,
        (unitDocs documents (pairBindings ps) d).map (fun x : DocumentData => x.id)
          = d.id :: ((pairedTripDoc documents (pairBindings ps) d).toList).map (·.id) := by
      intro d _
      unfold unitDocs
      rw [List.map_cons]
    rw [flatMap_congr_mem _ _
      (fun d => d.id :: ((pairedTripDoc documents (pairBindings ps) d).toList).map (·.id))
      hunit]
    exact (List.map_append_flatMap_perm _ _ _).symm
  have h4 := trip_ids_partition documents ps hn hwf
  refine List.Perm.trans (List.Perm.append_right _ (h1.trans h2)) ?_
  rw [List.append_assoc]
  refine List.Perm.trans (List.Perm.append_left _
    (List.Perm.append_right _ hperm0)) ?_
  refine List.Perm.trans (List.Perm.append_left _ h4) ?_
  exact inv_trip_append_perm documents

theorem bucket_ids_nodup (documents : List DocumentData) (ps : List PairingPair)
    (hn : (documents.map (·.id)).Nodup) (hwf : PairingWf documents ps) (t : InvoiceType) :
    ((bucketOf documents (pairBindings ps) t).map (·.id)).Nodup := by
  have hbig : ((typeOrder.flatMap (bucketOf documents (pairBindings ps))).map (·.id)).Nodup :=
    ((bucket_partition_ids documents ps hn hwf).nodup_iff).mpr hn
  have hsubl : List.Sublist (bucketOf documents (pairBindings ps) t)
      (typeOrder.flatMap (bucketOf documents (pairBindings ps))) := by
    rw [List.flatMap_def]
    exact List.sublist_flatten_of_mem
      (List.mem_map_of_mem _ (mem_typeOrder t))
  exact hbig.sublist (hsubl.map _)

theorem cdua_skip (B : List DocumentData) (pm : List (String × String))
    (d : DocumentData) (rest : List DocumentData) (processed : List String)
    (h : d.id ∈ processed) :
    createDocumentUnitsAux B pm (d :: rest) processed
      = createDocumentUnitsAux B pm rest processed := by
  rw [createDocumentUnitsAux, if_pos h]

theorem cdua_noninv (B : List DocumentData) (pm : List (String × String))
    (d : DocumentData) (rest : List DocumentData) (processed : List String)
    (h1 : d.id ∉ processed) (h2 : ¬ d.documentType = DocumentType.invoice) :
    createDocumentUnitsAux B pm (d :: rest) processed
      = ⟨d, none⟩ :: createDocumentUnitsAux B pm rest (processed ++ [d.id]) := by
  rw [createDocumentUnitsAux, if_neg h1, if_neg h2]

theorem cdua_inv_none (B : List DocumentData) (pm : List (String × String))
    (d : DocumentData) (rest : List DocumentData) (processed : List String)
    (h1 : d.id ∉ processed) (h2 : d.documentType = DocumentType.invoice)
    (h3 : pmLookup pm d.id = none) :
    createDocumentUnitsAux B pm (d :: rest) processed
      = ⟨d, none⟩ :: createDocumentUnitsAux B pm rest (processed ++ [d.id]) := by
  rw [createDocumentUnitsAux, if_neg h1, if_pos h2, h3]

theorem cdua_inv_empty (B : List DocumentData) (pm : List (String × String))
    (d : DocumentData) (rest : List DocumentData) (processed : List String)
    (h1 : d.id ∉ processed) (h2 : d.documentType = DocumentType.invoice)
    (h3 : pmLookup pm d.id = some "") :
    createDocumentUnitsAux B pm (d :: rest) processed
      = ⟨d, none⟩ :: createDocumentUnitsAux B pm rest (processed ++ [d.id]) := by
  rw [createDocumentUnitsAux, if_neg h1, if_pos h2, h3]
  dsimp only
  rw [if_pos rfl]

theorem cdua_inv_found (B : List DocumentData) (pm : List (String × String))
    (d : DocumentData) (rest : List DocumentData) (processed : List String)
    (ts : DocumentData) (h1 : d.id ∉ processed)
    (h2 : d.documentType = DocumentType.invoice) (h3 : pmLookup pm d.id = some ts.id)
    (he : ts.id ≠ "") (h4 : B.find? (fun x => decide (x.id = ts.id)) = some ts) :
    createDocumentUnitsAux B pm (d :: rest) processed
      = ⟨d, some ts⟩ :: createDocumentUnitsAux B pm rest (processed ++ [d.id, ts.id]) := by
  rw [createDocumentUnitsAux, if_neg h1, if_pos h2, h3]
  dsimp only
  rw [if_neg he, h4]

theorem createDocumentUnitsAux_segs (B : List DocumentData)
    (pm : List (String × String)) (hnd : (B.map (·.id)).Nodup) :
    ∀ segs : List (List DocumentData), ∀ processed : List String,
      (∀ seg ∈ segs, SegOk B pm seg) →
      (∀ x ∈ segs.flatten, x.id ∉ processed) →
      ((segs.flatten).map (·.id)).Nodup →
      createDocumentUnitsAux B pm segs.flatten processed = segs.flatMap segUnits := by
  intro segs
  induction segs with
  | nil =>
    intro processed _ _ _
    rfl
  | cons seg rest ih =>
    intro processed hok hfresh hnds
    have hokrest : ∀ s ∈ rest, SegOk B pm s := fun s hs => hok s (List.mem_cons_of_mem _ hs)
    rcases hok seg (List.mem_cons_self seg rest) with
      ⟨d, hseg, hdt⟩ | ⟨d, hseg, hdt, hlk⟩ | ⟨d, ts, hseg, hdt, hlk, hne, htsB⟩
    · subst hseg
      have hflat : (([d] : List DocumentData) :: rest).flatten = d :: rest.flatten := rfl
      rw [hflat] at hfresh hnds ⊢
      rw [List.map_cons, List.nodup_cons] at hnds
      rw [cdua_noninv B pm d rest.flatten processed (hfresh d (List.mem_cons_self _ _)) hdt]
      rw [ih (processed ++ [d.id]) hokrest ?_ hnds.2]
      · rfl
      · intro x hx
        rw [List.mem_append]
        rintro (h | h)
        · exact hfresh x (List.mem_cons_of_mem _ hx) h
        · rw [List.mem_singleton] at h
          exact hnds.1 (h ▸ List.mem_map_of_mem _ hx)
    · subst hseg
      have hflat : (([d] : List DocumentData) :: rest).flatten = d :: rest.flatten := rfl
      rw [hflat] at hfresh hnds ⊢
      rw [List.map_cons, List.nodup_cons] at hnds
      have hstep : createDocumentUnitsAux B pm (d :: rest.flatten) processed
          = ⟨d, none⟩ :: createDocumentUnitsAux B pm rest.flatten (processed ++ [d.id]) := by
        rcases hlk with hlk | hlk
        · exact cdua_inv_none B pm d rest.flatten processed
            (hfresh d (List.mem_cons_self _ _)) hdt hlk
        · exact cdua_inv_empty B pm d rest.flatten processed
            (hfresh d (List.mem_cons_self _ _)) hdt hlk
      rw [hstep]
      rw [ih (processed ++ [d.id]) hokrest ?_ hnds.2]
      · rfl
      · intro x hx
        rw [List.mem_append]
        rintro (h | h)
        · exact hfresh x (List.mem_cons_of_mem _ hx) h
        · rw [List.mem_singleton] at h
          exact hnds.1 (h ▸ List.mem_map_of_mem _ hx)
    · subst hseg
      have hflat : (([d, ts] : List DocumentData) :: rest).flatten
          = d :: ts :: rest.flatten := rfl
      rw [hflat] at hfresh hnds ⊢
      rw [List.map_cons, List.map_cons, List.nodup_cons, List.nodup_cons] at hnds
      have hfind : B.find? (fun x => decide (x.id = ts.id)) = some ts :=
        find_id B hnd ts htsB
      rw [cdua_inv_found B pm d (ts :: rest.flatten) processed ts
        (hfresh d (List.mem_cons_self _ _)) hdt hlk hne hfind]
      rw [cdua_skip B pm ts rest.flatten (processed ++ [d.id, ts.id]) (by simp)]
      rw [ih (processed ++ [d.id, ts.id]) hokrest ?_ hnds.2.2]
      · rfl
      · intro x hx
        rw [List.mem_append]
        rintro (h | h)
        · exact hfresh x (List.mem_cons_of_mem _ (List.mem_cons_of_mem _ hx)) h
        · rcases List.mem_cons.mp h with h1 | h1
          · exact hnds.1 (h1 ▸ List.mem_cons_of_mem _ (List.mem_map_of_mem _ hx))
          · rw [List.mem_singleton] at h1
            exact hnds.2.1 (h1 ▸ List.mem_map_of_mem _ hx)

theorem bucketSegs_flatten (documents : List DocumentData) (pm : List (String × String))
    (t : InvoiceType) :
    (bucketSegs documents pm t).flatten = bucketOf documents pm t := by
  unfold bucketSegs bucketOf
  rw [List.flatten_append, ← List.flatMap_def]
  congr 1
  by_cases ht : t = InvoiceType.other
  · rw [if_pos ht, if_pos ht, ← List.flatMap_def, List.flatMap_singleton']
  · rw [if_neg ht, if_neg ht]
    rfl

theorem bucketSegs_ok (documents : List DocumentData) (ps : List PairingPair)
    (hn : (documents.map (·.id)).Nodup) (hwf : PairingWf documents ps) (t : InvoiceType) :
    ∀ seg ∈ bucketSegs documents (pairBindings ps) t,
      SegOk (bucketOf documents (pairBindings ps) t) (pairBindings ps) seg := by
  intro seg hseg
  rcases List.mem_append.mp hseg with hseg | hseg
  · rcases List.mem_map.mp hseg with ⟨d, hd, rfl⟩
    have hdfil := List.mem_filter.mp hd
    have hdinv : d ∈ invDocs documents := by
      unfold invDocs
      rw [List.mem_filter]
      refine ⟨hdfil.1, ?_⟩
      have := hdfil.2
      simp only [Bool.and_eq_true, decide_eq_true_eq] at this
      simp [this.1]
    have hdt : d.documentType = DocumentType.invoice := by
      have := hdfil.2
      simp only [Bool.and_eq_true, decide_eq_true_eq] at this
      exact this.1
    cases hpd : pairedTripDoc documents (pairBindings ps) d with
    | none =>
      refine Or.inr (Or.inl ⟨d, ?_, hdt, ?_⟩)
      · unfold unitDocs
        rw [hpd]
        rfl
      · by_cases hin : d.id ∈ ps.map (·.invoiceId)
        · rcases List.mem_map.mp hin with ⟨p, hp, hpid⟩
          by_cases hpe : p.tripSheetId = ""
          · refine Or.inr ?_
            rw [paired_invoice_lookup documents ps hn hwf p hp d hdinv hpid.symm, hpe]
          · exfalso
            rcases pairedTripDoc_of_pair documents ps hn hwf p hp d hdinv hpid.symm hpe with
              ⟨ts, hsome, _, _⟩
            rw [hpd] at hsome
            cases hsome
        · exact Or.inl (unpaired_invoice_lookup documents ps hn hwf d hdinv hin)
    | some ts =>
      have hpd' := hpd
      unfold pairedTripDoc at hpd'
      rcases Option.bind_eq_some.mp hpd' with ⟨tsId, hlk, hfind⟩
      have he : tsId ≠ "" := by
        intro hc
        rw [if_pos hc] at hfind
        cases hfind
      rw [if_neg he] at hfind
      have hts : ts.id = tsId := by simpa using List.find?_some hfind
      refine Or.inr (Or.inr ⟨d, ts, ?_, hdt, ?_, ?_, ?_⟩)
      · unfold unitDocs
        rw [hpd]
        rfl
      · rw [hlk, hts]
      · rw [hts]
        exact he
      · unfold bucketOf
        refine List.mem_append_left _ (List.mem_flatMap.mpr ⟨d, hd, ?_⟩)
        unfold unitDocs
        rw [hpd]
        exact List.mem_cons_of_mem _ (by simp)
  · by_cases ht : t = InvoiceType.other
    · rw [if_pos ht] at hseg
      rcases List.mem_map.mp hseg with ⟨x, hx, rfl⟩
      refine Or.inl ⟨x, rfl, ?_⟩
      have hxfil := List.mem_filter.mp hx
      have := hxfil.2
      simp only [Bool.and_eq_true, decide_eq_true_eq] at this
      rw [this.1]
      intro hc
      cases hc
    · rw [if_neg ht] at hseg
      cases hseg

theorem createDocumentUnits_bucket (documents : List DocumentData) (ps : List PairingPair)
    (hn : (documents.map (·.id)).Nodup) (hwf : PairingWf documents ps) (t : InvoiceType) :
    createDocumentUnits (bucketOf documents (pairBindings ps) t) (pairBindings ps)
      = (bucketSegs documents (pairBindings ps) t).flatMap segUnits := by
  have h := createDocumentUnitsAux_segs (bucketOf documents (pairBindings ps) t)
    (pairBindings ps) (bucket_ids_nodup documents ps hn hwf t)
    (bucketSegs documents (pairBindings ps) t) []
    (bucketSegs_ok documents ps hn hwf t)
    (by
      intro x _
      exact List.not_mem_nil _)
    (by
      rw [bucketSegs_flatten]
      exact bucket_ids_nodup documents ps hn hwf t)
  rw [bucketSegs_flatten] at h
  exact h

theorem segUnits_flat (B : List DocumentData) (pm : List (String × String))
    (seg : List DocumentData) (hok : SegOk B pm seg) :
    (segUnits seg).flatMap (fun u => u.primaryDoc :: u.pairedDoc.toList) = seg := by
  rcases hok with ⟨d, hseg, _⟩ | ⟨d, hseg, _, _⟩ | ⟨d, ts, hseg, _, _, _, _⟩ <;>
    subst hseg <;> rfl

theorem sortGroupsByDate_bucket_perm (currentYear : Int) (documents : List DocumentData)
    (ps : List PairingPair) (hn : (documents.map (·.id)).Nodup)
    (hwf : PairingWf documents ps) (t : InvoiceType) :
    List.Perm
      (sortGroupsByDate currentYear (bucketOf documents (pairBindings ps))
        (pairBindings ps) t)
      (bucketOf documents (pairBindings ps) t) := by
  unfold sortGroupsByDate
  rw [createDocumentUnits_bucket documents ps hn hwf t]
  refine List.Perm.trans
    (List.Perm.flatMap_right _ (sortLE_perm (unitLE currentYear) _)) ?_
  rw [List.flatMap_assoc,
    flatMap_congr_mem _ _ (fun seg => seg)
      (fun seg hseg => segUnits_flat _ (pairBindings ps) seg
        (bucketSegs_ok documents ps hn hwf t seg hseg))]
  have hid : (bucketSegs documents (pairBindings ps) t).flatMap (fun seg => seg)
      = (bucketSegs documents (pairBindings ps) t).flatten := by
    rw [← List.flatMap_id]
    rfl
  rw [hid, bucketSegs_flatten]

theorem sortDocuments_suggestedOrder (currentYear : Int) (documents : List DocumentData)
    (pr : PairingResult) :
    (sortDocuments currentYear documents pr).suggestedOrder
      = generateFinalOrder (sortGroupsByDate currentYear
          (groupByExpenseType documents (createPairMap pr)) (createPairMap pr)) := rfl

theorem flatMap_chunk_decomp {α β : Type} (l : List α) (f : α → List β) (a : α)
    (ha : a ∈ l) : ∃ pre post, l.flatMap f = pre ++ f a ++ post := by
  rcases List.append_of_mem ha with ⟨s, t, rfl⟩
  exact ⟨s.flatMap f, t.flatMap f,
    by rw [List.flatMap_append, List.flatMap_cons, List.append_assoc]⟩

/-- C5 counterexample (the JS truthiness of the paired id): on the Record set
[hotel invoice "a", trip sheet "", taxi invoice "b"] — three distinct ids —
`pairDocuments` books the pair ("a", "") with score 80 (amount + same day),
but both grouping passes treat the empty-string trip-sheet id as falsy, so
the trip sheet is left to the `other` bucket and the suggested order is
["a", "b", ""]: the pair's trip-sheet id does not directly follow its
invoice id anywhere in the order, refuting the unconditional adjacency
invariant. -/
theorem sorting_adjacency_counterexample :
    (([invE_a, tsE, invE_b].map (·.id)).Nodup)
    ∧ pairDocuments 2024 [invE_a, tsE, invE_b]
        = ⟨[⟨"a", "", 80⟩], ["b"], []⟩
    ∧ (sortDocuments 2024 [invE_a, tsE, invE_b]
        (pairDocuments 2024 [invE_a, tsE, invE_b])).suggestedOrder = ["a", "b", ""]
    ∧ ¬ ∃ s t, (sortDocuments 2024 [invE_a, tsE, invE_b]
        (pairDocuments 2024 [invE_a, tsE, invE_b])).suggestedOrder
          = s ++ "a" :: "" :: t := by
  have h1 : checkAmountMatch invE_a.amount tsE.amount = true := by
    norm_num [checkAmountMatch, invE_a, tsE]
  have h2 : checkDateProximity 2024 invE_a.date tsE.date = 30 := by decide
  have h3 : checkPlatformMatch invE_a tsE = false := by decide
  have hscore : calculateMatchScore 2024 invE_a tsE = 80 := by
    rw [calculateMatchScore, h1, h2, h3]
    norm_num
  have hfb : findBestMatch 2024 invE_a [tsE] [] = some (tsE, 80) := by
    simp [findBestMatch, scanTripSheets, hscore]
  have hpd : pairDocuments 2024 [invE_a, tsE, invE_b]
      = ⟨[⟨"a", "", 80⟩], ["b"], []⟩ := by
    simp only [pairDocuments]
    rw [show [invE_a, tsE, invE_b].filter
        (fun doc => decide (doc.documentType = DocumentType.invoice))
          = [invE_a, invE_b] by simp [invE_a, tsE, invE_b]]
    rw [show [invE_a, tsE, invE_b].filter
        (fun doc => decide (doc.documentType = DocumentType.trip_sheet)) = [tsE] by
      simp [invE_a, tsE, invE_b]]
    simp only [pairInvoices, hfb]
    simp [invE_a, tsE, invE_b, findBestMatch, scanTripSheets]
  have hso : (sortDocuments 2024 [invE_a, tsE, invE_b]
      (pairDocuments 2024 [invE_a, tsE, invE_b])).suggestedOrder = ["a", "b", ""] := by
    rw [hpd]
    rfl
  refine ⟨by decide, hpd, hso, ?_⟩
  rw [hso]
  rintro ⟨s, t, h⟩
  rcases s with _ | ⟨x, s⟩
  · rw [List.nil_append] at h
    injection h with ha h'
    injection h' with hb h''
    exact absurd hb (by decide)
  · rcases s with _ | ⟨y, s⟩
    · rw [List.cons_append, List.nil_append] at h
      injection h with ha h'
      injection h' with hb h''
      exact absurd hb (by decide)
    · rw [List.cons_append, List.cons_append] at h
      injection h with ha h'
      injection h' with hb h''
      have hlen := congrArg List.length h''
      rw [List.length_append] at hlen
      simp only [List.length_cons, List.length_nil] at hlen
      omega

/-- C5 amended: for every Record set with duplicate-free ids and the pairs
produced from it by `pairDocuments`, the `suggestedOrder` of `sortDocuments`
is exactly a permutation of the input Record ids, and every pair whose
trip-sheet id is truthy (non-empty — the only ids the JS truthiness tests of
the grouping passes follow) has that id immediately following the pair's
invoice id. -/
theorem sortDocuments_order_perm_and_truthy_adjacent (currentYear : Int)
    (documents : List DocumentData) (hn : (documents.map (·.id)).Nodup) :
    List.Perm
      ((sortDocuments currentYear documents
        (pairDocuments currentYear documents)).suggestedOrder)
      (documents.map (·.id))
    ∧ ∀ p ∈ (pairDocuments currentYear documents).pairs, p.tripSheetId ≠ "" →
        ∃ s t, (sortDocuments currentYear documents
            (pairDocuments currentYear documents)).suggestedOrder
          = s ++ p.invoiceId :: p.tripSheetId :: t := by
  have hwf := pairDocuments_wf currentYear documents hn
  have hgrp : groupByExpenseType documents
      (pairBindings (pairDocuments currentYear documents).pairs)
      = bucketOf documents (pairBindings (pairDocuments currentYear documents).pairs) :=
    groupByExpenseType_eq documents _ hn
      (invoice_lookup_trip documents _ hn hwf)
  constructor
  · rw [sortDocuments_suggestedOrder, createPairMap_eq, hgrp]
    unfold generateFinalOrder
    refine List.Perm.trans (List.Perm.flatMap_left typeOrder
      (fun t _ => List.Perm.map _
        (sortGroupsByDate_bucket_perm currentYear documents _ hn hwf t))) ?_
    rw [← List.map_flatMap]
    exact bucket_partition_ids documents _ hn hwf
  · intro p hp hne
    rcases List.mem_map.mp (hwf.2.2.1 p hp) with ⟨d0, hd0, hd0id⟩
    rcases pairedTripDoc_of_pair documents _ hn hwf p hp d0 hd0 hd0id hne with
      ⟨ts0, hpd, hts0trip, hts0id⟩
    have hd0inv : d0.documentType = DocumentType.invoice := by
      have := (List.mem_filter.mp hd0).2
      simpa using this
    have hseg : unitDocs documents
        (pairBindings (pairDocuments currentYear documents).pairs) d0
        ∈ bucketSegs documents
          (pairBindings (pairDocuments currentYear documents).pairs)
          (d0.invoiceType.getD InvoiceType.other) := by
      refine List.mem_append_left _ (List.mem_map_of_mem _ ?_)
      rw [List.mem_filter]
      exact ⟨List.mem_of_mem_filter hd0, by simp [hd0inv]⟩
    have hu0 : (⟨d0, some ts0⟩ : DocUnit) ∈ (bucketSegs documents
        (pairBindings (pairDocuments currentYear documents).pairs)
        (d0.invoiceType.getD InvoiceType.other)).flatMap segUnits := by
      refine List.mem_flatMap.mpr ⟨unitDocs documents
        (pairBindings (pairDocuments currentYear documents).pairs) d0, hseg, ?_⟩
      unfold unitDocs
      rw [hpd]
      simp [segUnits]
    have hu0s : (⟨d0, some ts0⟩ : DocUnit) ∈ sortLE (unitLE currentYear)
        ((bucketSegs documents
          (pairBindings (pairDocuments currentYear documents).pairs)
          (d0.invoiceType.getD InvoiceType.other)).flatMap segUnits) :=
      ((sortLE_perm (unitLE currentYear) _).mem_iff).mpr hu0
    rcases List.append_of_mem hu0s with ⟨U1, U2, hU⟩
    have hsg : sortGroupsByDate currentYear
        (bucketOf documents (pairBindings (pairDocuments currentYear documents).pairs))
        (pairBindings (pairDocuments currentYear documents).pairs)
        (d0.invoiceType.getD InvoiceType.other)
        = (sortLE (unitLE currentYear) ((bucketSegs documents
            (pairBindings (pairDocuments currentYear documents).pairs)
            (d0.invoiceType.getD InvoiceType.other)).flatMap segUnits)).flatMap
          (fun u => u.primaryDoc :: u.pairedDoc.toList) := by
      unfold sortGroupsByDate
      rw [createDocumentUnits_bucket documents _ hn hwf]
    rw [sortDocuments_suggestedOrder, createPairMap_eq, hgrp]
    unfold generateFinalOrder
    rcases flatMap_chunk_decomp typeOrder
      (fun t => (sortGroupsByDate currentYear
        (bucketOf documents (pairBindings (pairDocuments currentYear documents).pairs))
        (pairBindings (pairDocuments currentYear documents).pairs) t).map (·.id))
      (d0.invoiceType.getD InvoiceType.other)
      (mem_typeOrder _) with ⟨pre, post, hdecomp⟩
    rw [hdecomp, hsg, hU, List.flatMap_append, List.flatMap_cons]
    refine ⟨pre ++ (U1.flatMap (fun u => u.primaryDoc :: u.pairedDoc.toList)).map (·.id),
      (U2.flatMap (fun u => u.primaryDoc :: u.pairedDoc.toList)).map (·.id) ++ post, ?_⟩
    simp only [List.map_append, List.map_cons, Option.toList_some, List.map_nil]
    rw [hd0id, hts0id]
    simp [List.append_assoc]

theorem pairDocuments_partition_witness :
    (([invW4, tsW4].map (·.id)).Nodup) ∧ pairingPartitionProp 2024 [invW4, tsW4] :=
  ⟨by decide, pairDocuments_partition 2024 [invW4, tsW4] (by decide)⟩

theorem sortDocuments_order_perm_and_truthy_adjacent_witness :
    (([invW5, tsW5].map (·.id)).Nodup)
    ∧ (List.Perm
        ((sortDocuments 2024 [invW5, tsW5]
          (pairDocuments 2024 [invW5, tsW5])).suggestedOrder)
        ([invW5, tsW5].map (·.id))
      ∧ ∀ p ∈ (pairDocuments 2024 [invW5, tsW5]).pairs, p.tripSheetId ≠ "" →
          ∃ s t, (sortDocuments 2024 [invW5, tsW5]
              (pairDocuments 2024 [invW5, tsW5])).suggestedOrder
            = s ++ p.invoiceId :: p.tripSheetId :: t) :=
  ⟨by decide, sortDocuments_order_perm_and_truthy_adjacent 2024 [invW5, tsW5] (by decide)⟩
